import Mathlib

/-!
Shallow embedding of the offline-mutation reconciliation logic of
`src/hooks/useRoutines.ts` (repository nehalDIU/Nesttask-V8.3-Depertment).

The embedding models:
  * the `Routine` / `RoutineSlot` records with their optional offline
    mutation markers (`_isOffline`, `_isOfflineUpdated`, `_isOfflineDeleted`,
    `_needsActivationSync`, `_needsDeactivationSync`); a marker that is
    `undefined` or `false` in TypeScript is `false` here (every read of a
    marker in the source is a truthiness test, so the two are
    indistinguishable to the code being modelled);
  * the reconciliation pass `syncOfflineChangesEnhanced` (lines 190-414),
    as a fold of a per-record step over the stored collection, with the
    remote service abstracted as an oracle `RemoteEnv` giving each remote
    call's outcome, and an explicit trace of the remote calls submitted;
  * the surrounding trigger (guard on `isOffline`/`syncInProgress`,
    storage read/write, state update, error containment) as a function to
    an observable `TriggerResult`;
  * the stub `syncOfflineChanges` (lines 165-168) and the disabled
    offline-storage module (`getAllFromIndexedDB` always resolves to `[]`,
    `saveToIndexedDB` is a no-op);
  * the hook operations `handleCreateRoutine`, `addRoutineSlot` (offline
    branch), `deleteRoutineSlot` (offline branch) and `activateRoutine`.

One fact of the source is load-bearing and is modelled explicitly: inside
`syncOfflineChangesEnhanced` the slot-level branches call
`deleteRoutineSlotService` (line 324), `addRoutineSlotService` (line 342)
and `updateRoutineSlotService` (line 362).  None of these three names is
imported or declared anywhere in the repository: the import list (lines
3-17) brings the slot service functions in as `addRoutineSlot`,
`updateRoutineSlot`, `deleteRoutineSlot` without a `Service` alias, and
those names are in turn shadowed by the hook's local functions.  At run
time, evaluating such an unbound name throws a `ReferenceError`, which the
per-slot `try/catch` converts into `syncErrors++`.  The model therefore
never emits a slot-level remote call: each marked slot contributes exactly
one error and is left unchanged.
-/

/-- A routine time slot as used by `useRoutines.ts`: a server or temporary
identifier, its parent routine id, a domain payload (`day`), a creation
timestamp, and the three offline mutation markers. -/
structure RoutineSlot where
  id : String
  routineId : String
  day : String
  createdAt : String
  isOffline : Bool
  isOfflineUpdated : Bool
  isOfflineDeleted : Bool
deriving DecidableEq, Repr

/-- A routine record: identifier, domain payload (`name`, `semester`,
`isActive`, creation data), nested slots, and the five offline mutation
markers read by the reconciliation pass. -/
structure Routine where
  id : String
  name : String
  semester : String
  isActive : Bool
  createdAt : String
  createdBy : String
  slots : List RoutineSlot
  isOffline : Bool
  isOfflineUpdated : Bool
  isOfflineDeleted : Bool
  needsActivationSync : Bool
  needsDeactivationSync : Bool
deriving DecidableEq, Repr

/-- The alphabet of remote calls the reconciliation pass can submit.  The
slot-level constructors are part of the alphabet (the source intends to
submit them) but the faithful model never emits them, because the slot
service identifiers are unbound in the source (see the file comment). -/
inductive RemoteCall where
  | deleteRoutine (id : String)
  | activateRoutine (id : String)
  | deactivateRoutine (id : String)
  | createRoutine (payload : Routine)
  | updateRoutine (id : String) (payload : Routine)
  | deleteSlot (routineId : String) (slotId : String)
  | createSlot (routineId : String) (payload : RoutineSlot)
  | updateSlot (routineId : String) (slotId : String) (payload : RoutineSlot)
deriving DecidableEq, Repr

/-- Outcome oracle for the remote data service (`routine.service.ts` is a
black box to the hook): for each routine-level call, whether it succeeds,
and for a create, the server-returned routine on success. -/
structure RemoteEnv where
  deleteRoutineR : String → Bool
  activateRoutineR : String → Bool
  deactivateRoutineR : String → Bool
  createRoutineR : Routine → Option Routine
  updateRoutineR : String → Routine → Bool

/-- State threaded through one reconciliation pass: the working collection
(`syncedRoutines`), the trace of submitted remote calls, the error counter
(`syncErrors`) and the `hasChanges` flag. -/
structure SyncState where
  recs : List Routine
  events : List RemoteCall
  errors : Nat
  hasChanges : Bool
deriving DecidableEq, Repr

/-- State of the inner slot loop: `syncedSlots`, `slotsChanged`, and the
shared error counter. -/
structure SlotLoopState where
  syncedSlots : List RoutineSlot
  slotsChanged : Bool
  errors : Nat
deriving DecidableEq, Repr

/-- Truthiness of `slot._isOffline || slot._isOfflineUpdated || slot._isOfflineDeleted`. -/
def slotMarked (s : RoutineSlot) : Bool :=
  s.isOffline || s.isOfflineUpdated || s.isOfflineDeleted

/-- Negation of the skip condition of lines 205-211: the record carries
some marker, either on itself or on one of its slots. -/
def hasAnyMarker (r : Routine) : Bool :=
  r.isOffline || r.isOfflineUpdated || r.isOfflineDeleted ||
    r.needsActivationSync || r.needsDeactivationSync || r.slots.any slotMarked

/-- Payload of `createRoutineService` at line 272: the rest-spread
`const { _isOffline, id, ...routineData } = routine` erases the temporary
identifier and the create marker and keeps every other field. -/
def createPayload (r : Routine) : Routine :=
  { r with id := "", isOffline := false }

/-- Payload of `updateRoutineService` at line 291: the rest-spread of line
290 erases `_isOfflineUpdated`, `_isOffline`, `_needsActivationSync`,
`_needsDeactivationSync` and `slots` (it keeps `id` and `_isOfflineDeleted`,
the latter necessarily false on this path). -/
def updatePayload (r : Routine) : Routine :=
  { r with isOffline := false, isOfflineUpdated := false,
           needsActivationSync := false, needsDeactivationSync := false,
           slots := [] }

/-- The merge of lines 296-300: `{ ...syncedRoutines[index], ...routineData,
_isOfflineUpdated: undefined }` — the update payload's fields overwrite the
collection entry, `slots` and the three markers not present in the payload
are kept from the entry, and the update marker is cleared. -/
def mergeUpdate (x r : Routine) : Routine :=
  { x with id := r.id, name := r.name, semester := r.semester,
           isActive := r.isActive, createdAt := r.createdAt,
           createdBy := r.createdBy, isOfflineDeleted := r.isOfflineDeleted,
           isOfflineUpdated := false }

/-- Model of `findIndex` followed by an in-place assignment to
`syncedRoutines[routineIndex]`: rewrite the first element whose `id`
matches, report whether one was found. -/
def updateFirst (f : Routine → Routine) (rid : String) : List Routine → List Routine × Bool
  | [] => ([], false)
  | x :: xs =>
    if x.id == rid then (f x :: xs, true)
    else
      let p := updateFirst f rid xs
      (x :: p.1, p.2)

/-- Append a submitted remote call to the trace. -/
def emit (st : SyncState) (e : RemoteCall) : SyncState :=
  { st with events := st.events ++ [e] }

/-- One iteration of the slot loop (lines 315-381).  Every branch that
would submit a slot-level remote call instead evaluates an unbound
identifier, so it throws before the call is made; the `catch` turns the
throw into `syncErrors++` and leaves `syncedSlots` and `slotsChanged`
untouched. -/
def processSlot (st : SlotLoopState) (s : RoutineSlot) : SlotLoopState :=
  if !s.isOffline && !s.isOfflineUpdated && !s.isOfflineDeleted then st
  else if s.isOfflineDeleted then { st with errors := st.errors + 1 }
  else if s.isOffline then { st with errors := st.errors + 1 }
  else if s.isOfflineUpdated then { st with errors := st.errors + 1 }
  else st

/-- The slot section of the per-routine body (lines 311-394): run the slot
loop over the routine's slots and, if `slotsChanged`, write the synced
slots back into the collection entry (setting `hasChanges` when the entry
is found). -/
def processSlotsSection (r : Routine) (st : SyncState) : SyncState :=
  if r.slots.isEmpty then st
  else
    let fin := r.slots.foldl processSlot
      { syncedSlots := r.slots, slotsChanged := false, errors := st.errors }
    if fin.slotsChanged then
      let p := updateFirst (fun x => { x with slots := fin.syncedSlots }) r.id st.recs
      { st with recs := p.1, errors := fin.errors, hasChanges := st.hasChanges || p.2 }
    else { st with errors := fin.errors }

/-- Deletion branch, lines 217-228: submit the remote delete; on success
filter the record out of the collection and set `hasChanges`; on failure
count one error.  Either way the per-record processing stops (`continue`). -/
def deletePhase (env : RemoteEnv) (st : SyncState) (r : Routine) : SyncState :=
  let s := emit st (.deleteRoutine r.id)
  if env.deleteRoutineR r.id then
    { s with recs := s.recs.filter (fun x => x.id != r.id), hasChanges := true }
  else { s with errors := s.errors + 1 }

/-- Activation / deactivation branch, lines 231-265: note the `else if` —
when both markers are set, only activation is attempted and the
deactivation marker survives.  On success the first collection entry with
the record's id gets `isActive` set and the corresponding marker cleared
(`hasChanges` only when an entry was found); on failure one error. -/
def activationPhase (env : RemoteEnv) (st : SyncState) (r : Routine) : SyncState :=
  if r.needsActivationSync then
    let s := emit st (.activateRoutine r.id)
    if env.activateRoutineR r.id then
      let p := updateFirst (fun x => { x with isActive := true, needsActivationSync := false }) r.id s.recs
      { s with recs := p.1, hasChanges := s.hasChanges || p.2 }
    else { s with errors := s.errors + 1 }
  else if r.needsDeactivationSync then
    let s := emit st (.deactivateRoutine r.id)
    if env.deactivateRoutineR r.id then
      let p := updateFirst (fun x => { x with isActive := false, needsDeactivationSync := false }) r.id s.recs
      { s with recs := p.1, hasChanges := s.hasChanges || p.2 }
    else { s with errors := s.errors + 1 }
  else st

/-- Create branch, lines 268-284: submit the create with the temporary id
and create marker stripped; on success replace every entry carrying the
temporary id by the server-returned record (filter then push); on failure
count one error.  Either way processing stops (`continue`). -/
def createPhase (env : RemoteEnv) (st : SyncState) (r : Routine) : SyncState :=
  let s := emit st (.createRoutine (createPayload r))
  match env.createRoutineR (createPayload r) with
  | some n => { s with recs := s.recs.filter (fun x => x.id != r.id) ++ [n], hasChanges := true }
  | none => { s with errors := s.errors + 1 }

/-- Update branch, lines 287-308: submit the update with the marker-free
payload; on success merge the payload into the first collection entry with
the record's id and clear the update marker; on failure count one error. -/
def updatePhase (env : RemoteEnv) (st : SyncState) (r : Routine) : SyncState :=
  if r.isOfflineUpdated then
    let s := emit st (.updateRoutine r.id (updatePayload r))
    if env.updateRoutineR r.id (updatePayload r) then
      let p := updateFirst (fun x => mergeUpdate x r) r.id s.recs
      { s with recs := p.1, hasChanges := s.hasChanges || p.2 }
    else { s with errors := s.errors + 1 }
  else st

/-- Per-record body of the reconciliation loop (lines 203-395): skip
marker-free records; a delete-marked record runs only the delete branch; a
create-marked record runs activation then create and stops; otherwise
activation, then update, then the slot section. -/
def processRoutine (env : RemoteEnv) (st : SyncState) (r : Routine) : SyncState :=
  if !hasAnyMarker r then st
  else if r.isOfflineDeleted then deletePhase env st r
  else
    let st1 := activationPhase env st r
    if r.isOffline then createPhase env st1 r
    else processSlotsSection r (updatePhase env st1 r)

/-- One reconciliation pass over the stored collection (the body of
`syncOfflineChangesEnhanced` between the storage read and the final save):
`syncedRoutines` starts as a copy of the stored list and each stored record
is processed in order. -/
def syncPass (env : RemoteEnv) (stored : List Routine) : SyncState :=
  stored.foldl (processRoutine env)
    { recs := stored, events := [], errors := 0, hasChanges := false }

/-- Observable outcome of one invocation of the reconciliation trigger:
whether local storage was read, the submitted remote calls, the collection
written back to storage (`none` when `saveToIndexedDB` was not called), the
collection installed in memory (`none` when `setRoutines` was not called),
the error count, the `syncInProgress` flag after completion, and whether
the returned promise rejected. -/
structure TriggerResult where
  readStorage : Bool
  events : List RemoteCall
  savedToStorage : Option (List Routine)
  newInMemory : Option (List Routine)
  errors : Nat
  inProgressAfter : Bool
  thrown : Bool
deriving DecidableEq, Repr

/-- The full trigger `syncOfflineChangesEnhanced` (lines 190-414), with the
result of `getAllFromIndexedDB` passed in as `stored`.  Guard (line 191):
offline or already syncing returns immediately with no side effect.
Otherwise the pass runs; on `hasChanges` the synced collection is saved and
installed in memory; the outer `catch` swallows any throw (so the promise
never rejects) and the `finally` clears the in-progress flag. -/
def syncOfflineChangesEnhanced (isOffline inProgress : Bool) (stored : List Routine)
    (env : RemoteEnv) : TriggerResult :=
  if isOffline || inProgress then
    { readStorage := false, events := [], savedToStorage := none, newInMemory := none,
      errors := 0, inProgressAfter := inProgress, thrown := false }
  else
    let st := syncPass env stored
    { readStorage := true, events := st.events,
      savedToStorage := if st.hasChanges then some st.recs else none,
      newInMemory := if st.hasChanges then some st.recs else none,
      errors := st.errors, inProgressAfter := false, thrown := false }

/-- The shipped build: the offline storage module is a stub whose
`getAllFromIndexedDB` always resolves to the empty array (part_006, lines
315-320), so the trigger always runs on `stored = []`. -/
def syncOfflineChangesEnhancedShipped (isOffline inProgress : Bool)
    (env : RemoteEnv) : TriggerResult :=
  syncOfflineChangesEnhanced isOffline inProgress [] env

/-- The no-op stub `syncOfflineChanges` (lines 165-168): logs and resolves,
touching nothing. -/
def syncOfflineChanges (inProgress : Bool) : TriggerResult :=
  { readStorage := false, events := [], savedToStorage := none, newInMemory := none,
    errors := 0, inProgressAfter := inProgress, thrown := false }

/-- Payload of a new slot as passed to the hook's `addRoutineSlot`
(`Omit<RoutineSlot, 'id' | 'routineId' | 'createdAt'>`). -/
structure NewSlotPayload where
  day : String
deriving DecidableEq, Repr

/-- Offline branch of the hook's `addRoutineSlot` (lines 421-460): build a
temporary slot with id `temp-slot-` followed by a timestamp-and-random
suffix and the `_isOffline` create marker, append it to the stored
routine's slot array, and return it; when the routine is not in the stored
collection, throw `Routine not found`. -/
def addRoutineSlotOffline (stored : List Routine) (routineId : String)
    (slot : NewSlotPayload) (suffix now : String) :
    Except String (List Routine × RoutineSlot) :=
  let newSlot : RoutineSlot :=
    { id := "temp-slot-" ++ suffix, routineId := routineId, day := slot.day,
      createdAt := now, isOffline := true, isOfflineUpdated := false,
      isOfflineDeleted := false }
  let p := updateFirst (fun r => { r with slots := r.slots ++ [newSlot] }) routineId stored
  if p.2 then Except.ok (p.1, newSlot)
  else Except.error "Routine not found"

/-- Payload of `handleCreateRoutine`
(`Omit<Routine, 'id' | 'createdAt' | 'createdBy'>`). -/
structure NewRoutinePayload where
  name : String
  semester : String
  isActive : Bool
deriving DecidableEq, Repr

/-- The hook's `handleCreateRoutine` (lines 93-107): while offline it
throws without creating anything, local or remote; online it submits the
remote create and appends the created routine to the in-memory list. -/
def handleCreateRoutine (isOffline : Bool) (routine : NewRoutinePayload)
    (create : NewRoutinePayload → Option Routine) (routines : List Routine) :
    Except String (List Routine × Routine) :=
  if isOffline then
    Except.error "Cannot create routines while offline. Please connect to the internet and try again."
  else
    match create routine with
    | some created => Except.ok (routines ++ [created], created)
    | none => Except.error "createRoutineService failed"

/-- In-memory collection update performed by the hook's `activateRoutine`
(lines 742-790) after a successful call, for both modes: every routine's
`isActive` becomes `id === routineId`; the offline mode additionally sets
`_needsActivationSync` on the target and clears it on every other
routine. -/
def activateRoutine (offline : Bool) (routineId : String) (routines : List Routine) :
    List Routine :=
  routines.map (fun r =>
    if offline then
      { r with isActive := r.id == routineId, needsActivationSync := r.id == routineId }
    else
      { r with isActive := r.id == routineId })

/-- Offline branch of the hook's `deleteRoutineSlot` (lines 587-622) acting
on the stored collection: in the first routine whose id matches, mark the
matching slots `_isOfflineDeleted` and then drop those of them that carry
the `_isOffline` create marker (line 597-601: temporary slots are removed
immediately instead of being marked). -/
def deleteRoutineSlotOffline (stored : List Routine) (routineId slotId : String) :
    List Routine :=
  (updateFirst (fun r =>
    let marked := r.slots.map (fun s =>
      if s.id == slotId then { s with isOfflineDeleted := true } else s)
    { r with slots := marked.filter (fun s => !(s.id == slotId && s.isOffline)) })
    routineId stored).1

/-! ### Basic characterizations of the pass -/

/-- Routine-level vs slot-level calls in the remote-call alphabet. -/
def isSlotCall : RemoteCall → Bool
  | .deleteSlot _ _ => true
  | .createSlot _ _ => true
  | .updateSlot _ _ _ => true
  | _ => false

/-- First collection entry with a given identifier (the `findIndex` target). -/
def firstWithId (rid : String) (l : List Routine) : Option Routine :=
  l.find? (fun x => x.id == rid)

theorem processRoutine_skip (env : RemoteEnv) (st : SyncState) (r : Routine)
    (h : hasAnyMarker r = false) : processRoutine env st r = st := by
  simp [processRoutine, h]

theorem foldl_processRoutine_skip (env : RemoteEnv) (L : List Routine) (st : SyncState)
    (h : ∀ x ∈ L, hasAnyMarker x = false) :
    L.foldl (processRoutine env) st = st := by
  induction L generalizing st with
  | nil => rfl
  | cons a L ih =>
    simp only [List.foldl_cons]
    rw [processRoutine_skip env st a (h a (by simp))]
    exact ih st (fun x hx => h x (by simp [hx]))

theorem slotLoop_char (l : List RoutineSlot) (ss : List RoutineSlot) (b : Bool) (e : Nat) :
    l.foldl processSlot { syncedSlots := ss, slotsChanged := b, errors := e } =
      { syncedSlots := ss, slotsChanged := b, errors := e + l.countP slotMarked } := by
  induction l generalizing e with
  | nil => simp
  | cons s l ih =>
    have hstep : processSlot { syncedSlots := ss, slotsChanged := b, errors := e } s =
        { syncedSlots := ss, slotsChanged := b,
          errors := e + (if slotMarked s then 1 else 0) } := by
      by_cases h1 : s.isOfflineDeleted
      · simp [processSlot, slotMarked, h1]
      · by_cases h2 : s.isOffline
        · simp [processSlot, slotMarked, h1, h2]
        · by_cases h3 : s.isOfflineUpdated
          · simp [processSlot, slotMarked, h1, h2, h3]
          · simp [processSlot, slotMarked, h1, h2, h3]
    rw [List.foldl_cons, hstep, ih]
    congr 1
    rw [List.countP_cons]
    simp only [slotMarked]
    omega

theorem processSlotsSection_char (r : Routine) (st : SyncState) :
    processSlotsSection r st = { st with errors := st.errors + r.slots.countP slotMarked } := by
  unfold processSlotsSection
  by_cases h : r.slots.isEmpty
  · have : r.slots = [] := by simpa [List.isEmpty_iff] using h
    simp [h, this]
  · simp [h, slotLoop_char]

/-! ### Error-count monotonicity -/

theorem errors_le_deletePhase (env : RemoteEnv) (st : SyncState) (r : Routine) :
    st.errors ≤ (deletePhase env st r).errors := by
  unfold deletePhase emit
  by_cases h : env.deleteRoutineR r.id <;> simp [h]

theorem errors_le_activationPhase (env : RemoteEnv) (st : SyncState) (r : Routine) :
    st.errors ≤ (activationPhase env st r).errors := by
  unfold activationPhase emit
  by_cases h1 : r.needsActivationSync
  · by_cases h2 : env.activateRoutineR r.id <;> simp [h1, h2]
  · by_cases h3 : r.needsDeactivationSync
    · by_cases h2 : env.deactivateRoutineR r.id <;> simp [h1, h2, h3]
    · simp [h1, h3]

theorem errors_le_createPhase (env : RemoteEnv) (st : SyncState) (r : Routine) :
    st.errors ≤ (createPhase env st r).errors := by
  unfold createPhase emit
  cases h : env.createRoutineR (createPayload r) <;> simp [h]

theorem errors_le_updatePhase (env : RemoteEnv) (st : SyncState) (r : Routine) :
    st.errors ≤ (updatePhase env st r).errors := by
  unfold updatePhase emit
  by_cases h1 : r.isOfflineUpdated
  · by_cases h2 : env.updateRoutineR r.id (updatePayload r) <;> simp [h1, h2]
  · simp [h1]

theorem errors_le_processRoutine (env : RemoteEnv) (st : SyncState) (r : Routine) :
    st.errors ≤ (processRoutine env st r).errors := by
  unfold processRoutine
  by_cases hm : hasAnyMarker r
  · by_cases hd : r.isOfflineDeleted
    · simpa [hm, hd] using errors_le_deletePhase env st r
    · by_cases hc : r.isOffline
      · have h1 := errors_le_activationPhase env st r
        have h2 := errors_le_createPhase env (activationPhase env st r) r
        simp only [hm, hd, hc, Bool.not_true, if_false, if_true, Bool.false_eq_true]
        omega
      · have h1 := errors_le_activationPhase env st r
        have h2 := errors_le_updatePhase env (activationPhase env st r) r
        simp only [hm, hd, hc, Bool.not_true, if_false, if_true, Bool.false_eq_true,
          processSlotsSection_char]
        omega
  · simp [hm]

theorem errors_le_foldl (env : RemoteEnv) (L : List Routine) (st : SyncState) :
    st.errors ≤ (L.foldl (processRoutine env) st).errors := by
  induction L generalizing st with
  | nil => simp
  | cons a L ih =>
    calc st.errors ≤ (processRoutine env st a).errors := errors_le_processRoutine env st a
    _ ≤ _ := ih (processRoutine env st a)

/-! ### The trace contains only routine-level calls -/

theorem no_slot_call_deletePhase (env : RemoteEnv) (st : SyncState) (r : Routine)
    (e : RemoteCall) (he : e ∈ (deletePhase env st r).events) :
    e ∈ st.events ∨ isSlotCall e = false := by
  unfold deletePhase emit at he
  by_cases h : env.deleteRoutineR r.id <;> simp [h] at he <;>
    rcases he with he | he <;> simp [he, isSlotCall]

theorem no_slot_call_activationPhase (env : RemoteEnv) (st : SyncState) (r : Routine)
    (e : RemoteCall) (he : e ∈ (activationPhase env st r).events) :
    e ∈ st.events ∨ isSlotCall e = false := by
  unfold activationPhase emit at he
  by_cases h1 : r.needsActivationSync
  · by_cases h2 : env.activateRoutineR r.id <;> simp [h1, h2] at he <;>
      rcases he with he | he <;> simp [he, isSlotCall]
  · by_cases h3 : r.needsDeactivationSync
    · by_cases h2 : env.deactivateRoutineR r.id <;> simp [h1, h2, h3] at he <;>
        rcases he with he | he <;> simp [he, isSlotCall]
    · simp [h1, h3] at he
      simp [he]

theorem no_slot_call_createPhase (env : RemoteEnv) (st : SyncState) (r : Routine)
    (e : RemoteCall) (he : e ∈ (createPhase env st r).events) :
    e ∈ st.events ∨ isSlotCall e = false := by
  unfold createPhase emit at he
  cases h : env.createRoutineR (createPayload r) <;> simp [h] at he <;>
    rcases he with he | he <;> simp [he, isSlotCall]

theorem no_slot_call_updatePhase (env : RemoteEnv) (st : SyncState) (r : Routine)
    (e : RemoteCall) (he : e ∈ (updatePhase env st r).events) :
    e ∈ st.events ∨ isSlotCall e = false := by
  unfold updatePhase emit at he
  by_cases h1 : r.isOfflineUpdated
  · by_cases h2 : env.updateRoutineR r.id (updatePayload r) <;> simp [h1, h2] at he <;>
      rcases he with he | he <;> simp [he, isSlotCall]
  · simp [h1] at he
    simp [he]

theorem no_slot_call_processRoutine (env : RemoteEnv) (st : SyncState) (r : Routine)
    (e : RemoteCall) (he : e ∈ (processRoutine env st r).events) :
    e ∈ st.events ∨ isSlotCall e = false := by
  unfold processRoutine at he
  by_cases hm : hasAnyMarker r
  · by_cases hd : r.isOfflineDeleted
    · rw [if_neg (by simp [hm]), if_pos hd] at he
      exact no_slot_call_deletePhase env st r e he
    · by_cases hc : r.isOffline
      · rw [if_neg (by simp [hm]), if_neg hd, if_pos hc] at he
        rcases no_slot_call_createPhase env (activationPhase env st r) r e he with h | h
        · exact no_slot_call_activationPhase env st r e h
        · exact Or.inr h
      · rw [if_neg (by simp [hm]), if_neg hd, if_neg hc] at he
        rw [processSlotsSection_char] at he
        rcases no_slot_call_updatePhase env (activationPhase env st r) r e he with h | h
        · exact no_slot_call_activationPhase env st r e h
        · exact Or.inr h
  · rw [if_pos (by simp [hm])] at he
    exact Or.inl he

theorem no_slot_call_foldl (env : RemoteEnv) (L : List Routine) (st : SyncState)
    (hst : ∀ e ∈ st.events, isSlotCall e = false) :
    ∀ e ∈ (L.foldl (processRoutine env) st).events, isSlotCall e = false := by
  induction L generalizing st with
  | nil => exact hst
  | cons a L ih =>
    refine ih (processRoutine env st a) (fun e he => ?_)
    rcases no_slot_call_processRoutine env st a e he with h | h
    · exact hst e h
    · exact h

/-- The reconciliation pass never submits a slot-level remote call, for any
stored collection and any remote-service behaviour: the slot branches throw
on an unbound identifier before the call is made. -/
theorem syncPass_no_slot_calls (env : RemoteEnv) (stored : List Routine) :
    ∀ e ∈ (syncPass env stored).events, isSlotCall e = false := by
  unfold syncPass
  exact no_slot_call_foldl env stored _ (by simp)

/-! ### `updateFirst` and `firstWithId` -/

theorem firstWithId_cons_pos (rid : String) (x : Routine) (xs : List Routine)
    (h : (x.id == rid) = true) : firstWithId rid (x :: xs) = some x := by
  unfold firstWithId
  exact List.find?_cons_of_pos _ h

theorem firstWithId_cons_neg (rid : String) (x : Routine) (xs : List Routine)
    (h : ¬(x.id == rid) = true) : firstWithId rid (x :: xs) = firstWithId rid xs := by
  unfold firstWithId
  exact List.find?_cons_of_neg _ h

theorem updateFirst_of_none (f : Routine → Routine) (rid : String) (l : List Routine)
    (h : firstWithId rid l = none) : updateFirst f rid l = (l, false) := by
  induction l with
  | nil => rfl
  | cons x xs ih =>
    by_cases hx : x.id == rid
    · rw [firstWithId_cons_pos rid x xs hx] at h
      exact absurd h (by simp)
    · rw [firstWithId_cons_neg rid x xs hx] at h
      simp [updateFirst, hx, ih h]

theorem updateFirst_char (rid : String) (l : List Routine) (y : Routine)
    (h : firstWithId rid l = some y) :
    ∃ A B, l = A ++ y :: B ∧ (∀ a ∈ A, (a.id == rid) = false) ∧
      ∀ f, updateFirst f rid l = (A ++ f y :: B, true) := by
  induction l with
  | nil => simp [firstWithId] at h
  | cons x xs ih =>
    by_cases hx : x.id == rid
    · rw [firstWithId_cons_pos rid x xs hx] at h
      injection h with h
      subst h
      refine ⟨[], xs, by simp, by simp, fun f => ?_⟩
      simp [updateFirst, hx]
    · rw [firstWithId_cons_neg rid x xs hx] at h
      obtain ⟨A, B, hl, hA, hf⟩ := ih h
      refine ⟨x :: A, B, by simp [hl], ?_, fun f => ?_⟩
      · intro a ha
        rcases List.mem_cons.mp ha with rfl | ha
        · simpa using hx
        · exact hA a ha
      · simp only [updateFirst, hx, if_false, hf f]
        simp [hl]

theorem firstWithId_mem_and_id (rid : String) (l : List Routine) (y : Routine)
    (h : firstWithId rid l = some y) : y ∈ l ∧ y.id = rid := by
  refine ⟨List.mem_of_find?_eq_some h, ?_⟩
  have := List.find?_some h
  simpa using this

/-- Filtering by a predicate that every match of `p` satisfies preserves
the first match. -/
theorem find?_filter_of_imp {α : Type} (p q : α → Bool) (l : List α) (x : α)
    (hpq : ∀ b, p b = true → q b = true) (h : l.find? p = some x) :
    (l.filter q).find? p = some x := by
  induction l with
  | nil => simp at h
  | cons a l ih =>
    by_cases hpa : p a
    · rw [List.find?_cons_of_pos _ hpa] at h
      injection h with h
      subst h
      rw [List.filter_cons_of_pos (hpq a hpa), List.find?_cons_of_pos _ hpa]
    · rw [List.find?_cons_of_neg _ hpa] at h
      by_cases hqa : q a
      · rw [List.filter_cons_of_pos hqa, List.find?_cons_of_neg _ hpa]
        exact ih h
      · rw [List.filter_cons_of_neg (by simpa using hqa)]
        exact ih h

theorem find?_append_left {α : Type} (p : α → Bool) (l1 l2 : List α) (x : α)
    (h : l1.find? p = some x) : (l1 ++ l2).find? p = some x := by
  rw [List.find?_append, h]
  rfl

/-- Helper for splicing: the first entry with `rid` in `A ++ c :: B` is `c`
when no element of `A` matches and `c` does. -/
theorem firstWithId_append_first (rid : String) (A B : List Routine) (c : Routine)
    (hA : ∀ a ∈ A, (a.id == rid) = false) (hc : (c.id == rid) = true) :
    firstWithId rid (A ++ c :: B) = some c := by
  unfold firstWithId
  rw [List.find?_append]
  have h1 : A.find? (fun x => x.id == rid) = none :=
    List.find?_eq_none.mpr (fun a ha => by simp [hA a ha])
  have h2 : List.find? (fun x => x.id == rid) (c :: B) = some c :=
    List.find?_cons_of_pos _ hc
  rw [h1, h2]
  rfl

/-! ### Fixtures for concrete evaluations -/

/-- Remote environment in which every routine-level call succeeds and every
create returns a fixed marker-free server record. -/
def envAllSuccess : RemoteEnv :=
  { deleteRoutineR := fun _ => true, activateRoutineR := fun _ => true,
    deactivateRoutineR := fun _ => true,
    createRoutineR := fun _ => none,
    updateRoutineR := fun _ _ => true }

/-- Remote environment in which every routine-level call fails. -/
def envAllFail : RemoteEnv :=
  { deleteRoutineR := fun _ => false, activateRoutineR := fun _ => false,
    deactivateRoutineR := fun _ => false, createRoutineR := fun _ => none,
    updateRoutineR := fun _ _ => false }

/-- A marker-free base routine used to build concrete scenarios. -/
def baseRoutine : Routine :=
  { id := "r-1", name := "Algebra", semester := "Spring", isActive := false,
    createdAt := "t0", createdBy := "u1", slots := [],
    isOffline := false, isOfflineUpdated := false, isOfflineDeleted := false,
    needsActivationSync := false, needsDeactivationSync := false }

/-- The slot of the spec scenario for nested sync: a slot created offline,
with a temporary identifier and the create marker. -/
def tempSlotS1 : RoutineSlot :=
  { id := "temp-s1", routineId := "r-1", day := "Mon", createdAt := "t0",
    isOffline := true, isOfflineUpdated := false, isOfflineDeleted := false }

/-- The spec scenario for nested sync: a routine with no markers of its own
whose only slot carries a create marker and a temporary identifier. -/
def routineWithTempSlot : Routine := { baseRoutine with slots := [tempSlotS1] }

/-! ### C1 -/

/-- C1: the spec claims that a marked nested slot's remote operation is
submitted and that a successful slot create replaces the temporary slot
record with the server-returned one.  The code cannot do this: the slot
branches reference the unbound identifiers `addRoutineSlotService`,
`updateRoutineSlotService` and `deleteRoutineSlotService`, so they throw
before any call is made.  On the spec's own scenario (a routine whose only
slot is `temp-s1` with a create marker), under every remote environment the
pass submits no remote call at all, counts one error, reports no change,
and leaves the temporary slot in place; and in general no pass ever emits a
slot-level call. -/
theorem c1_slot_sync_never_submitted :
    (∀ env : RemoteEnv,
      syncPass env [routineWithTempSlot] =
        { recs := [routineWithTempSlot], events := [], errors := 1, hasChanges := false }) ∧
    (∀ (env : RemoteEnv) (stored : List Routine),
      (syncPass env stored).events.countP isSlotCall = 0) := by
  constructor
  · intro env
    rfl
  · intro env stored
    rw [List.countP_eq_zero]
    intro e he
    simpa using syncPass_no_slot_calls env stored e he

/-! ### C2 -/

/-- C2: in the shipped build (`getAllFromIndexedDB` always resolves to the
empty array and `saveToIndexedDB` is a no-op), every invocation of
`syncOfflineChangesEnhanced` is observationally equivalent to the no-op
stub `syncOfflineChanges`: zero remote calls, storage never written, the
in-memory collection never replaced, zero errors, and the same final
in-progress flag. -/
theorem c2_shipped_pass_equals_stub :
    ∀ (isOffline inProgress : Bool) (env : RemoteEnv),
      (syncOfflineChangesEnhancedShipped isOffline inProgress env).events = [] ∧
      (syncOfflineChangesEnhancedShipped isOffline inProgress env).events =
        (syncOfflineChanges inProgress).events ∧
      (syncOfflineChangesEnhancedShipped isOffline inProgress env).savedToStorage =
        (syncOfflineChanges inProgress).savedToStorage ∧
      (syncOfflineChangesEnhancedShipped isOffline inProgress env).newInMemory =
        (syncOfflineChanges inProgress).newInMemory ∧
      (syncOfflineChangesEnhancedShipped isOffline inProgress env).errors =
        (syncOfflineChanges inProgress).errors ∧
      (syncOfflineChangesEnhancedShipped isOffline inProgress env).inProgressAfter =
        (syncOfflineChanges inProgress).inProgressAfter := by
  intro isOffline inProgress env
  cases isOffline <;> cases inProgress <;> exact ⟨rfl, rfl, rfl, rfl, rfl, rfl⟩

/-! ### C6 -/

/-- C6: when the system is offline or a pass is already in progress, the
trigger returns immediately with no side effect: storage is not read, no
remote call is submitted, nothing is saved or installed in memory, no error
is counted, and the in-progress flag keeps its previous value (so a second
concurrent trigger contributes no remote calls at all). -/
theorem c6_guard_no_side_effects (isOffline inProgress : Bool) (stored : List Routine)
    (env : RemoteEnv) (h : isOffline = true ∨ inProgress = true) :
    syncOfflineChangesEnhanced isOffline inProgress stored env =
      { readStorage := false, events := [], savedToStorage := none, newInMemory := none,
        errors := 0, inProgressAfter := inProgress, thrown := false } := by
  unfold syncOfflineChangesEnhanced
  rcases h with h | h <;> simp [h]

/-- Witness for C6 at a concrete input: a second trigger fired while a pass
is in progress is a complete no-op. -/
theorem c6_guard_no_side_effects_witness :
    syncOfflineChangesEnhanced false true [baseRoutine] envAllSuccess =
      { readStorage := false, events := [], savedToStorage := none, newInMemory := none,
        errors := 0, inProgressAfter := true, thrown := false } :=
  c6_guard_no_side_effects false true [baseRoutine] envAllSuccess (Or.inr rfl)

/-! ### C7 -/

/-- C7: the promise returned by the trigger never rejects, whatever the
remote environment does (per-record failures are converted into the error
count by the per-record catches and the outer catch swallows the rest),
and whenever the guard lets a pass run, the in-progress flag is cleared
when the pass ends. -/
theorem c7_trigger_never_rejects (isOffline inProgress : Bool) (stored : List Routine)
    (env : RemoteEnv) :
    (syncOfflineChangesEnhanced isOffline inProgress stored env).thrown = false ∧
    (isOffline = false → inProgress = false →
      (syncOfflineChangesEnhanced isOffline inProgress stored env).inProgressAfter = false) := by
  unfold syncOfflineChangesEnhanced
  cases isOffline <;> cases inProgress <;> simp

/-- Witness for C7: a pass over a delete-marked record in an environment in
which every remote call fails still completes without rejection and clears
the in-progress flag. -/
theorem c7_trigger_never_rejects_witness :
    (syncOfflineChangesEnhanced false false [{ baseRoutine with isOfflineDeleted := true }]
      envAllFail).thrown = false ∧
    (syncOfflineChangesEnhanced false false [{ baseRoutine with isOfflineDeleted := true }]
      envAllFail).inProgressAfter = false :=
  ⟨(c7_trigger_never_rejects false false [{ baseRoutine with isOfflineDeleted := true }] envAllFail).1,
   (c7_trigger_never_rejects false false [{ baseRoutine with isOfflineDeleted := true }] envAllFail).2 rfl rfl⟩

/-! ### C8 -/

/-- C8 counterexample: creating a routine while the remote service is
unreachable does not produce a local record with a temporary identifier —
`handleCreateRoutine` throws unconditionally in offline mode (lines 94-96),
for any payload and any in-memory collection. -/
theorem c8_counterexample_offline_routine_create_throws :
    handleCreateRoutine true { name := "Algebra", semester := "Spring", isActive := false }
      (fun _ => none) [] =
      Except.error "Cannot create routines while offline. Please connect to the internet and try again." :=
  rfl

/-- C8 amended: only routine slots get the offline-create path.  When the
parent routine is present in the stored collection, an offline slot create
succeeds locally, returning a slot whose identifier is the temporary
`temp-slot-` prefix plus the generated suffix and whose `_isOffline` create
marker is set, and appending that slot to the stored routine's slot array;
offline routine creation instead fails with an error. -/
theorem c8_amended_offline_create (stored : List Routine) (routineId : String)
    (slot : NewSlotPayload) (suffix now : String) (r : Routine)
    (hr : firstWithId routineId stored = some r) :
    (∃ updated newSlot,
      addRoutineSlotOffline stored routineId slot suffix now = Except.ok (updated, newSlot) ∧
      newSlot.id = "temp-slot-" ++ suffix ∧ newSlot.isOffline = true ∧
      newSlot.routineId = routineId ∧ newSlot.day = slot.day ∧
      ∃ r2, firstWithId routineId updated = some r2 ∧ r2.slots = r.slots ++ [newSlot]) ∧
    (∀ (payload : NewRoutinePayload) (create : NewRoutinePayload → Option Routine)
        (routines : List Routine),
      handleCreateRoutine true payload create routines =
        Except.error "Cannot create routines while offline. Please connect to the internet and try again.") := by
  constructor
  · obtain ⟨A, B, hl, hA, hf⟩ := updateFirst_char routineId stored r hr
    obtain ⟨hrm, hrid⟩ := firstWithId_mem_and_id routineId stored r hr
    refine ⟨A ++
      { r with slots := r.slots ++
          [{ id := "temp-slot-" ++ suffix, routineId := routineId, day := slot.day,
             createdAt := now, isOffline := true, isOfflineUpdated := false,
             isOfflineDeleted := false }] } :: B,
      { id := "temp-slot-" ++ suffix, routineId := routineId, day := slot.day,
        createdAt := now, isOffline := true, isOfflineUpdated := false,
        isOfflineDeleted := false }, ?_, rfl, rfl, rfl, rfl, ?_⟩
    · simp [addRoutineSlotOffline, hf]
    · refine ⟨_, firstWithId_append_first routineId A B _ hA (by simpa using hrid), rfl⟩
  · intro payload create routines
    rfl

/-- Witness for C8 at a concrete input. -/
theorem c8_amended_offline_create_witness :
    (∃ updated newSlot,
      addRoutineSlotOffline [baseRoutine] "r-1" { day := "Tue" } "x7" "t1" =
        Except.ok (updated, newSlot) ∧
      newSlot.id = "temp-slot-" ++ "x7" ∧ newSlot.isOffline = true ∧
      newSlot.routineId = "r-1" ∧ newSlot.day = NewSlotPayload.day { day := "Tue" } ∧
      ∃ r2, firstWithId "r-1" updated = some r2 ∧ r2.slots = baseRoutine.slots ++ [newSlot]) ∧
    (∀ (payload : NewRoutinePayload) (create : NewRoutinePayload → Option Routine)
        (routines : List Routine),
      handleCreateRoutine true payload create routines =
        Except.error "Cannot create routines while offline. Please connect to the internet and try again.") :=
  c8_amended_offline_create [baseRoutine] "r-1" { day := "Tue" } "x7" "t1" baseRoutine (by decide)

/-! ### C9 -/

/-- A collection whose identifiers are pairwise distinct has at most one
element matching any given identifier. -/
theorem countP_id_le_one (routines : List Routine) (rid : String)
    (hnd : (routines.map Routine.id).Nodup) :
    routines.countP (fun r => r.id == rid) ≤ 1 := by
  induction routines with
  | nil => simp
  | cons r l ih =>
    rw [List.map_cons, List.nodup_cons] at hnd
    rw [List.countP_cons]
    by_cases h : r.id == rid
    · have hz : l.countP (fun x => x.id == rid) = 0 := by
        rw [List.countP_eq_zero]
        intro x hx
        have hne : x.id ≠ r.id := by
          intro hcontra
          exact hnd.1 (hcontra ▸ List.mem_map_of_mem Routine.id hx)
        simp only [beq_iff_eq]
        intro hcontra
        exact hne (by rw [hcontra, eq_comm, ← beq_iff_eq (a := r.id)] ; exact h)
      simp [h, hz]
    · simp only [h, if_false, Nat.add_zero]
      exact ih hnd.2

/-- C9: after a successful `activateRoutine(routineId)`, online or offline,
every routine's active flag equals whether its identifier is the activated
one — so the target (if present) is active, every other routine is
inactive, and (when identifiers are pairwise distinct) at most one routine
in the collection is active. -/
theorem c9_at_most_one_active (offline : Bool) (routineId : String)
    (routines : List Routine) (hnd : (routines.map Routine.id).Nodup) :
    (∀ x ∈ activateRoutine offline routineId routines, x.isActive = (x.id == routineId)) ∧
    (activateRoutine offline routineId routines).countP (fun x => x.isActive) ≤ 1 := by
  constructor
  · intro x hx
    obtain ⟨r, hrm, rfl⟩ := List.mem_map.mp hx
    cases offline <;> simp
  · have hcount : ∀ l : List Routine,
        (activateRoutine offline routineId l).countP (fun x => x.isActive) =
          l.countP (fun r => r.id == routineId) := by
      intro l
      induction l with
      | nil => rfl
      | cons r l ih =>
        unfold activateRoutine at ih ⊢
        rw [List.map_cons, List.countP_cons, List.countP_cons, ih]
        cases offline <;> simp
    rw [hcount routines]
    exact countP_id_le_one routines routineId hnd

/-- Witness for C9 at a concrete two-routine collection. -/
theorem c9_at_most_one_active_witness :
    (∀ x ∈ activateRoutine false "r-2" [baseRoutine, { baseRoutine with id := "r-2" }],
      x.isActive = (x.id == "r-2")) ∧
    (activateRoutine false "r-2" [baseRoutine, { baseRoutine with id := "r-2" }]).countP
      (fun x => x.isActive) ≤ 1 :=
  c9_at_most_one_active false "r-2" [baseRoutine, { baseRoutine with id := "r-2" }] (by decide)

/-! ### C10 -/

/-- C10: deleting a slot offline removes a slot that was itself created
offline (create marker set) from the stored routine's slot array outright —
no slot with that identifier remains, so no delete can ever be replayed for
it — while a slot without the create marker is kept and marked
`_isOfflineDeleted` for later replay. -/
theorem c10_offline_slot_delete (stored : List Routine) (routineId slotId : String)
    (r : Routine) (s : RoutineSlot)
    (hr : firstWithId routineId stored = some r)
    (hs : s ∈ r.slots) (hsid : s.id = slotId)
    (huniq : ∀ t ∈ r.slots, t.id = slotId → t = s) :
    ∃ r2, firstWithId routineId (deleteRoutineSlotOffline stored routineId slotId) = some r2 ∧
      (s.isOffline = true → ∀ t ∈ r2.slots, t.id ≠ slotId) ∧
      (s.isOffline = false → { s with isOfflineDeleted := true } ∈ r2.slots ∧
        ∀ t ∈ r2.slots, t.id = slotId → t = { s with isOfflineDeleted := true }) := by
  obtain ⟨A, B, hl, hA, hf⟩ := updateFirst_char routineId stored r hr
  obtain ⟨hrm, hrid⟩ := firstWithId_mem_and_id routineId stored r hr
  unfold deleteRoutineSlotOffline
  rw [hf]
  refine ⟨_, firstWithId_append_first routineId A B _ hA (by simpa using hrid), ?_, ?_⟩
  · intro hoff t ht htid
    simp only [List.mem_filter, List.mem_map] at ht
    obtain ⟨⟨u, hu, hut⟩, hq⟩ := ht
    by_cases huid : u.id == slotId
    · have hus : u = s := huniq u hu (by simpa using huid)
      subst hus
      rw [if_pos huid] at hut
      subst hut
      simp [hsid, hoff] at hq
    · rw [if_neg huid] at hut
      subst hut
      exact absurd htid (by simpa using huid)
  · intro hoff
    constructor
    · simp only [List.mem_filter, List.mem_map]
      refine ⟨⟨s, hs, ?_⟩, ?_⟩
      · rw [if_pos (by simpa using hsid)]
      · simp [hoff]
    · intro t ht htid
      simp only [List.mem_filter, List.mem_map] at ht
      obtain ⟨⟨u, hu, hut⟩, hq⟩ := ht
      by_cases huid : u.id == slotId
      · have hus : u = s := huniq u hu (by simpa using huid)
        subst hus
        rw [if_pos huid] at hut
        exact hut.symm
      · rw [if_neg huid] at hut
        subst hut
        exact absurd htid (by simpa using huid)

/-- Witness for C10 at a concrete input: a routine holding one temporary
slot (create marker set) and one synced slot. -/
theorem c10_offline_slot_delete_witness :
    ∃ r2, firstWithId "r-1"
        (deleteRoutineSlotOffline [{ baseRoutine with slots := [tempSlotS1] }] "r-1" "temp-s1") =
        some r2 ∧
      (tempSlotS1.isOffline = true → ∀ t ∈ r2.slots, t.id ≠ "temp-s1") ∧
      (tempSlotS1.isOffline = false →
        { tempSlotS1 with isOfflineDeleted := true } ∈ r2.slots ∧
        ∀ t ∈ r2.slots, t.id = "temp-s1" → t = { tempSlotS1 with isOfflineDeleted := true }) :=
  c10_offline_slot_delete [{ baseRoutine with slots := [tempSlotS1] }] "r-1" "temp-s1"
    { baseRoutine with slots := [tempSlotS1] } tempSlotS1 (by decide) (by decide) (by decide)
    (by decide)


/-! ### C4 -/

theorem activationPhase_no_marker (env : RemoteEnv) (st : SyncState) (r : Routine)
    (h1 : r.needsActivationSync = false) (h2 : r.needsDeactivationSync = false) :
    activationPhase env st r = st := by
  simp [activationPhase, h1, h2]

/-- In a collection with pairwise-distinct identifiers split around an
element, no other element shares that element's identifier. -/
theorem nodup_ids_split (A B : List Routine) (r : Routine)
    (hnd : ((A ++ r :: B).map Routine.id).Nodup) :
    (∀ x ∈ A, x.id ≠ r.id) ∧ (∀ x ∈ B, x.id ≠ r.id) := by
  rw [List.map_append, List.map_cons] at hnd
  rcases List.nodup_append.mp hnd with ⟨h1, h2, hdisj⟩
  constructor
  · intro x hx hcontra
    exact hdisj (hcontra ▸ List.mem_map_of_mem Routine.id hx) (by simp)
  · intro x hx hcontra
    rcases List.nodup_cons.mp h2 with ⟨hnotin, h3⟩
    exact hnotin (hcontra ▸ List.mem_map_of_mem Routine.id hx)

/-- C4: a record carrying only a create marker and a temporary identifier,
in a collection of otherwise marker-free records with pairwise-distinct
identifiers, is promoted by a pass whose remote create succeeds and returns
a marker-free record with a fresh server identifier and the same domain
payload: afterwards the temporary identifier is absent from the collection,
and exactly one record carries the server identifier — the server record
itself, marker-free, with the original payload. -/
theorem c4_create_promotes_record (env : RemoteEnv) (L : List Routine) (r n : Routine)
    (hnd : (L.map Routine.id).Nodup)
    (hmem : r ∈ L)
    (honly : r.isOffline = true ∧ r.isOfflineUpdated = false ∧ r.isOfflineDeleted = false ∧
      r.needsActivationSync = false ∧ r.needsDeactivationSync = false)
    (hothers : ∀ x ∈ L, x ≠ r → hasAnyMarker x = false)
    (hcreate : env.createRoutineR (createPayload r) = some n)
    (hn : hasAnyMarker n = false)
    (hpay : n.name = r.name ∧ n.semester = r.semester)
    (hfresh : ∀ x ∈ L, x.id ≠ n.id) :
    (syncPass env L).recs = L.filter (fun x => x.id != r.id) ++ [n] ∧
    (∀ x ∈ (syncPass env L).recs, x.id ≠ r.id) ∧
    (syncPass env L).recs.countP (fun x => x.id == n.id) = 1 ∧
    (∀ x ∈ (syncPass env L).recs, x.id = n.id →
      x = n ∧ hasAnyMarker x = false ∧ x.name = r.name ∧ x.semester = r.semester) := by
  have hm : hasAnyMarker r = true := by simp [hasAnyMarker, honly.1]
  have hstep : ∀ st : SyncState, processRoutine env st r =
      { st with recs := st.recs.filter (fun x => x.id != r.id) ++ [n],
                events := st.events ++ [RemoteCall.createRoutine (createPayload r)],
                hasChanges := true } := by
    intro st
    unfold processRoutine
    rw [if_neg (by simp [hm]), if_neg (by simp [honly.2.2.1]),
      activationPhase_no_marker env st r honly.2.2.2.1 honly.2.2.2.2,
      if_pos honly.1]
    unfold createPhase emit
    rw [hcreate]
  obtain ⟨A, B, hl⟩ := List.append_of_mem hmem
  subst hl
  obtain ⟨hA, hB⟩ := nodup_ids_split A B r hnd
  have hAfree : ∀ x ∈ A, hasAnyMarker x = false := by
    intro x hx
    refine hothers x (by simp [hx]) (fun hcontra => hA x hx (by rw [hcontra]))
  have hBfree : ∀ x ∈ B, hasAnyMarker x = false := by
    intro x hx
    refine hothers x (by simp [hx]) (fun hcontra => hB x hx (by rw [hcontra]))
  have hrecs : (syncPass env (A ++ r :: B)).recs =
      (A ++ r :: B).filter (fun x => x.id != r.id) ++ [n] := by
    unfold syncPass
    rw [List.foldl_append, foldl_processRoutine_skip env A _ hAfree, List.foldl_cons, hstep,
      foldl_processRoutine_skip env B _ hBfree]
  refine ⟨hrecs, ?_, ?_, ?_⟩
  · intro x hx
    rw [hrecs] at hx
    rcases List.mem_append.mp hx with hx | hx
    · have := (List.mem_filter.mp hx).2
      simpa using this
    · have hxn : x = n := by simpa using hx
      subst hxn
      exact fun hcontra => hfresh r hmem hcontra.symm
  · rw [hrecs, List.countP_append]
    have h0 : ((A ++ r :: B).filter (fun x => x.id != r.id)).countP
        (fun x => x.id == n.id) = 0 := by
      rw [List.countP_eq_zero]
      intro x hx
      have hxL : x ∈ A ++ r :: B := (List.mem_filter.mp hx).1
      simpa using hfresh x hxL
    rw [h0]
    simp
  · intro x hx hid
    rw [hrecs] at hx
    rcases List.mem_append.mp hx with hx | hx
    · have hxL : x ∈ A ++ r :: B := (List.mem_filter.mp hx).1
      exact absurd hid (hfresh x hxL)
    · have hxn : x = n := by simpa using hx
      subst hxn
      exact ⟨rfl, hn, hpay.1, hpay.2⟩

/-- Server-side record used in the C4 witness: the payload of the
temporary record under the fresh identifier `r-42`. -/
def serverRoutine42 : Routine := { baseRoutine with id := "r-42" }

/-- Remote environment for the C4 witness: the create succeeds and returns
`serverRoutine42`. -/
def envCreate42 : RemoteEnv := { envAllSuccess with createRoutineR := fun _ => some serverRoutine42 }

/-- Temporary create-marked record of the C4 witness. -/
def tempRoutine1 : Routine := { baseRoutine with id := "temp-1", isOffline := true }

/-- Witness for C4 at the spec's scenario: `[{id: "temp-1", pendingCreate,
payload}]` with a successful create returning `{id: "r-42", payload}`. -/
theorem c4_create_promotes_record_witness :
    (syncPass envCreate42 [tempRoutine1]).recs =
      [tempRoutine1].filter (fun x => x.id != tempRoutine1.id) ++ [serverRoutine42] ∧
    (∀ x ∈ (syncPass envCreate42 [tempRoutine1]).recs, x.id ≠ tempRoutine1.id) ∧
    (syncPass envCreate42 [tempRoutine1]).recs.countP (fun x => x.id == serverRoutine42.id) = 1 ∧
    (∀ x ∈ (syncPass envCreate42 [tempRoutine1]).recs, x.id = serverRoutine42.id →
      x = serverRoutine42 ∧ hasAnyMarker x = false ∧ x.name = tempRoutine1.name ∧
        x.semester = tempRoutine1.semester) :=
  c4_create_promotes_record envCreate42 [tempRoutine1] tempRoutine1 serverRoutine42
    (by decide) (by decide) (by decide) (by decide) (by decide) (by decide) (by decide)
    (by decide)


/-! ### C5 -/

/-- Record of the C5 counterexample: activation marker and update marker
both set. -/
def actUpdRecord : Routine :=
  { baseRoutine with needsActivationSync := true, isOfflineUpdated := true }

/-- Remote environment of the C5 counterexample: activation fails, the
update succeeds. -/
def envActFailUpdOk : RemoteEnv :=
  { envAllFail with updateRoutineR := fun _ _ => true }

/-- C5 counterexample: a record whose remote activation call fails is NOT
left unchanged with its markers intact — when its update call succeeds in
the same iteration, the update marker is cleared and the merge is applied,
so the record in the final collection differs from the original even though
one of its remote calls failed (the error count records that failure). -/
theorem c5_counterexample_failed_record_changed :
    envActFailUpdOk.activateRoutineR actUpdRecord.id = false ∧
    (syncPass envActFailUpdOk [actUpdRecord]).errors = 1 ∧
    (syncPass envActFailUpdOk [actUpdRecord]).recs ≠ [actUpdRecord] := by
  decide

/-- Number of errors one record contributes when every one of its remote
calls fails: one per attempted routine-level call, plus one per marked slot
(whose branch throws on the unbound service identifier). -/
def failureCount (r : Routine) : Nat :=
  if !hasAnyMarker r then 0
  else if r.isOfflineDeleted then 1
  else
    (if r.needsActivationSync then 1 else if r.needsDeactivationSync then 1 else 0) +
    (if r.isOffline then 1
     else (if r.isOfflineUpdated then 1 else 0) + r.slots.countP slotMarked)

/-- Every remote call the pass would attempt for this record fails, stated
per reachable branch. -/
def allCallsFail (env : RemoteEnv) (r : Routine) : Prop :=
  (r.isOfflineDeleted = true → env.deleteRoutineR r.id = false) ∧
  (r.isOfflineDeleted = false → r.needsActivationSync = true →
    env.activateRoutineR r.id = false) ∧
  (r.isOfflineDeleted = false → r.needsActivationSync = false →
    r.needsDeactivationSync = true → env.deactivateRoutineR r.id = false) ∧
  (r.isOfflineDeleted = false → r.isOffline = true →
    env.createRoutineR (createPayload r) = none) ∧
  (r.isOfflineDeleted = false → r.isOffline = false → r.isOfflineUpdated = true →
    env.updateRoutineR r.id (updatePayload r) = false)

instance (env : RemoteEnv) (r : Routine) : Decidable (allCallsFail env r) := by
  unfold allCallsFail
  infer_instance

/-- Under `allCallsFail`, the activation branch only emits its failed call
and counts one error per attempted activation or deactivation. -/
theorem activationPhase_all_fail (env : RemoteEnv) (st : SyncState) (r : Routine)
    (hd2 : r.isOfflineDeleted = false)
    (hfa : r.isOfflineDeleted = false → r.needsActivationSync = true →
      env.activateRoutineR r.id = false)
    (hfda : r.isOfflineDeleted = false → r.needsActivationSync = false →
      r.needsDeactivationSync = true → env.deactivateRoutineR r.id = false) :
    activationPhase env st r =
      { st with
        errors := st.errors +
          (if r.needsActivationSync then 1 else if r.needsDeactivationSync then 1 else 0),
        events := st.events ++
          (if r.needsActivationSync then [RemoteCall.activateRoutine r.id]
           else if r.needsDeactivationSync then [RemoteCall.deactivateRoutine r.id]
           else []) } := by
  unfold activationPhase emit
  by_cases ha : r.needsActivationSync
  · rw [if_pos ha, if_neg (by simp [hfa hd2 ha])]
    simp [ha]
  · have ha2 : r.needsActivationSync = false := by simpa using ha
    by_cases hda : r.needsDeactivationSync
    · have hcall := hfda hd2 ha2 hda
      rw [if_neg ha, if_pos hda, if_neg (by simp [hcall])]
      simp [ha, hda]
    · rw [if_neg ha, if_neg hda]
      simp [ha2, hda]

/-- C5 amended: for a record all of whose attempted remote calls fail, the
pass leaves the whole working collection (hence that record and its
markers) unchanged and the change flag untouched, increments the error
counter by exactly one per failure, and continues with the remaining
records of the batch. -/
theorem c5_amended_failures_counted_and_contained (env : RemoteEnv) (st : SyncState)
    (r : Routine) (hfail : allCallsFail env r) :
    (processRoutine env st r).recs = st.recs ∧
    (processRoutine env st r).hasChanges = st.hasChanges ∧
    (processRoutine env st r).errors = st.errors + failureCount r ∧
    (∀ rest : List Routine,
      List.foldl (processRoutine env) st (r :: rest) =
        List.foldl (processRoutine env) (processRoutine env st r) rest) := by
  obtain ⟨hfd, hfa, hfda, hfc, hfu⟩ := hfail
  have hmain : ∃ E, processRoutine env st r =
      { st with events := st.events ++ E, errors := st.errors + failureCount r } := by
    by_cases hm : hasAnyMarker r
    case neg =>
      have hm2 : hasAnyMarker r = false := by simpa using hm
      refine ⟨[], ?_⟩
      rw [processRoutine_skip env st r hm2]
      simp [failureCount, hm2]
    case pos =>
      by_cases hd : r.isOfflineDeleted
      · have hstep : processRoutine env st r = deletePhase env st r := by
          unfold processRoutine
          rw [if_neg (by simp [hm]), if_pos hd]
        have hdel : deletePhase env st r =
            { st with events := st.events ++ [RemoteCall.deleteRoutine r.id],
                      errors := st.errors + 1 } := by
          unfold deletePhase emit
          rw [if_neg (by simp [hfd hd])]
        refine ⟨[RemoteCall.deleteRoutine r.id], ?_⟩
        rw [hstep, hdel]
        simp [failureCount, hm, hd]
      · have hd2 : r.isOfflineDeleted = false := by simpa using hd
        have hact := activationPhase_all_fail env st r hd2 hfa hfda
        by_cases hc : r.isOffline
        · have hstep : processRoutine env st r =
              createPhase env (activationPhase env st r) r := by
            unfold processRoutine
            rw [if_neg (by simp [hm]), if_neg hd, if_pos hc]
          have hcre : createPhase env (activationPhase env st r) r =
              { activationPhase env st r with
                events := (activationPhase env st r).events ++
                  [RemoteCall.createRoutine (createPayload r)],
                errors := (activationPhase env st r).errors + 1 } := by
            unfold createPhase emit
            rw [hfc hd2 hc]
          refine ⟨(if r.needsActivationSync then [RemoteCall.activateRoutine r.id]
             else if r.needsDeactivationSync then [RemoteCall.deactivateRoutine r.id]
             else []) ++ [RemoteCall.createRoutine (createPayload r)], ?_⟩
          rw [hstep, hcre, hact]
          simp [failureCount, hm, hd2, hc]
          all_goals omega
        · have hc2 : r.isOffline = false := by simpa using hc
          have hstep : processRoutine env st r =
              processSlotsSection r (updatePhase env (activationPhase env st r) r) := by
            unfold processRoutine
            rw [if_neg (by simp [hm]), if_neg hd, if_neg hc]
          have hupd : updatePhase env (activationPhase env st r) r =
              { activationPhase env st r with
                errors := (activationPhase env st r).errors +
                  (if r.isOfflineUpdated then 1 else 0),
                events := (activationPhase env st r).events ++
                  (if r.isOfflineUpdated then
                    [RemoteCall.updateRoutine r.id (updatePayload r)] else []) } := by
            unfold updatePhase emit
            by_cases hu : r.isOfflineUpdated
            · rw [if_pos hu, if_neg (by simp [hfu hd2 hc2 hu])]
              simp [hu]
            · rw [if_neg hu]
              simp [hu]
          refine ⟨(if r.needsActivationSync then [RemoteCall.activateRoutine r.id]
             else if r.needsDeactivationSync then [RemoteCall.deactivateRoutine r.id]
             else []) ++
            (if r.isOfflineUpdated then
              [RemoteCall.updateRoutine r.id (updatePayload r)] else []), ?_⟩
          rw [hstep, processSlotsSection_char, hupd, hact]
          simp [failureCount, hm, hd2, hc2]
          all_goals omega
  obtain ⟨E, hE⟩ := hmain
  exact ⟨by rw [hE], by rw [hE], by rw [hE], fun rest => rfl⟩

/-- Witness for C5 amended: a delete-marked record whose delete fails
leaves the collection untouched, adds exactly one error, and the batch
continues. -/
theorem c5_amended_witness :
    (processRoutine envAllFail
      { recs := [{ baseRoutine with isOfflineDeleted := true }],
        events := [], errors := 0, hasChanges := false }
      { baseRoutine with isOfflineDeleted := true }).recs =
      [{ baseRoutine with isOfflineDeleted := true }] ∧
    (processRoutine envAllFail
      { recs := [{ baseRoutine with isOfflineDeleted := true }],
        events := [], errors := 0, hasChanges := false }
      { baseRoutine with isOfflineDeleted := true }).hasChanges = false ∧
    (processRoutine envAllFail
      { recs := [{ baseRoutine with isOfflineDeleted := true }],
        events := [], errors := 0, hasChanges := false }
      { baseRoutine with isOfflineDeleted := true }).errors =
      0 + failureCount { baseRoutine with isOfflineDeleted := true } ∧
    (∀ rest : List Routine,
      List.foldl (processRoutine envAllFail)
        { recs := [{ baseRoutine with isOfflineDeleted := true }],
          events := [], errors := 0, hasChanges := false }
        ({ baseRoutine with isOfflineDeleted := true } :: rest) =
      List.foldl (processRoutine envAllFail)
        (processRoutine envAllFail
          { recs := [{ baseRoutine with isOfflineDeleted := true }],
            events := [], errors := 0, hasChanges := false }
          { baseRoutine with isOfflineDeleted := true }) rest) :=
  c5_amended_failures_counted_and_contained envAllFail
    { recs := [{ baseRoutine with isOfflineDeleted := true }],
      events := [], errors := 0, hasChanges := false }
    { baseRoutine with isOfflineDeleted := true } (by decide)

/-! ### C3 -/

/-- Record of the C3 counterexample: both activation and deactivation
markers set (reachable by an offline activate followed by an offline
deactivate, which does not clear the activation marker). -/
def actDeactRecord : Routine :=
  { baseRoutine with needsActivationSync := true, needsDeactivationSync := true }

/-- C3 counterexample: a first pass over a record carrying both the
activation and the deactivation marker is clean (zero errors), yet the
`else if` of lines 231-248 only attempts the activation and the spread at
lines 236-240 retains the deactivation marker, so the second pass submits a
deactivation call — two consecutive passes with no intervening mutation are
not idempotent. -/
theorem c3_counterexample_second_pass_calls :
    (syncPass envAllSuccess [actDeactRecord]).errors = 0 ∧
    (syncPass envAllSuccess (syncPass envAllSuccess [actDeactRecord]).recs).events ≠ [] := by
  decide

/-- The remote create of the black-box service returns marker-free records
(server rows carry no offline flags). -/
def envCreatesClean (env : RemoteEnv) : Prop :=
  ∀ p n, env.createRoutineR p = some n → hasAnyMarker n = false

/-- Effect of a successful activation on the found collection entry
(lines 236-240). -/
def actClean1 (x : Routine) : Routine :=
  { x with isActive := true, needsActivationSync := false }

/-- Effect of a successful deactivation on the found collection entry
(lines 253-257). -/
def actClean2 (x : Routine) : Routine :=
  { x with isActive := false, needsDeactivationSync := false }

/-- The entry rewrite the activation branch performs for record `r` on a
clean run: activation if marked, else deactivation if marked, else nothing. -/
def actApply (r x : Routine) : Routine :=
  if r.needsActivationSync then actClean1 x
  else if r.needsDeactivationSync then actClean2 x
  else x

theorem actApply_id (r x : Routine) : (actApply r x).id = x.id := by
  unfold actApply actClean1 actClean2
  by_cases h1 : r.needsActivationSync <;> by_cases h2 : r.needsDeactivationSync <;> simp [h1, h2]

theorem mergeUpdate_id (x r : Routine) : (mergeUpdate x r).id = r.id := rfl

theorem actApply_clean (r x : Routine) (hx : hasAnyMarker x = false) :
    hasAnyMarker (actApply r x) = false := by
  unfold actApply actClean1 actClean2
  unfold hasAnyMarker at hx ⊢
  by_cases h1 : r.needsActivationSync <;> by_cases h2 : r.needsDeactivationSync <;>
    simp [h1, h2] at hx ⊢ <;> tauto

theorem mergeUpdate_clean (x r : Routine) (hx : hasAnyMarker x = false)
    (hd2 : r.isOfflineDeleted = false) : hasAnyMarker (mergeUpdate x r) = false := by
  unfold mergeUpdate
  unfold hasAnyMarker at hx ⊢
  simp [hd2] at hx ⊢
  tauto

/-- A clean slot loop (zero errors contributed) means no slot is marked. -/
theorem slots_clean_of_countP (l : List RoutineSlot) (h : l.countP slotMarked = 0) :
    l.any slotMarked = false := by
  rw [List.countP_eq_zero] at h
  rw [List.any_eq_false]
  intro s hs
  simp [h s hs]

/-- On a clean run of a record that is neither delete- nor create-marked
and has no marked slots, the final collection entry rewrite produces a
marker-free record, provided the record does not carry both the activation
and the deactivation marker. -/
theorem final_entry_clean (r : Routine) (hm : hasAnyMarker r = true)
    (hd2 : r.isOfflineDeleted = false) (hc2 : r.isOffline = false)
    (hdd : ¬(r.needsActivationSync = true ∧ r.needsDeactivationSync = true))
    (hslots : r.slots.any slotMarked = false) :
    hasAnyMarker
      (if r.isOfflineUpdated then mergeUpdate (actApply r r) r else actApply r r) = false := by
  unfold actApply actClean1 actClean2 mergeUpdate
  unfold hasAnyMarker at hm ⊢
  by_cases ha : r.needsActivationSync <;> by_cases hda : r.needsDeactivationSync <;>
    by_cases hu : r.isOfflineUpdated <;>
    simp [ha, hda, hu, hd2, hc2, hslots] at hm hdd ⊢ <;> tauto

/-- Applying `updateFirst` to an explicit decomposition whose prefix has no matching
identifier rewrites exactly the split element. -/
theorem updateFirst_on_decomp (f : Routine → Routine) (rid : String) (A B : List Routine)
    (c : Routine) (hA : ∀ a ∈ A, (a.id == rid) = false) (hc : (c.id == rid) = true) :
    updateFirst f rid (A ++ c :: B) = (A ++ f c :: B, true) := by
  induction A with
  | nil => simp [updateFirst, hc]
  | cons a A ih =>
    have hArest : ∀ x ∈ A, (x.id == rid) = false := fun x hx => hA x (by simp [hx])
    have ha : (a.id == rid) = false := hA a (by simp)
    show updateFirst f rid (a :: (A ++ c :: B)) = (a :: (A ++ f c :: B), true)
    simp [updateFirst, ha, ih hArest]

/-- Replacing one entry by another with the same identifier preserves the
first entry with any other identifier. -/
theorem firstWithId_replace (A B : List Routine) (c c2 x : Routine) (xid : String)
    (hid : c2.id = c.id) (hxc : xid ≠ c.id)
    (h : firstWithId xid (A ++ c :: B) = some x) :
    firstWithId xid (A ++ c2 :: B) = some x := by
  unfold firstWithId at h ⊢
  rw [List.find?_append] at h ⊢
  have hpc : ((fun e : Routine => e.id == xid) c) = false := by
    simp
    intro hcontra
    exact hxc (by rw [hcontra])
  have hpc2 : ((fun e : Routine => e.id == xid) c2) = false := by
    simp [hid]
    intro hcontra
    exact hxc (by rw [hcontra])
  cases hA : A.find? (fun e => e.id == xid) with
  | some a =>
    rw [hA] at h
    simpa using h
  | none =>
    rw [hA] at h
    simp only [Option.none_or] at h ⊢
    rw [List.find?_cons_of_neg _ (by simp [hpc])] at h
    rw [List.find?_cons_of_neg _ (by simp [hpc2])]
    exact h

/-- Deleting the split entry and every later entry sharing its identifier,
then appending a record, preserves the first entry with any other
identifier. -/
theorem firstWithId_filter_drop (A B : List Routine) (c x n : Routine) (rid xid : String)
    (hcid : c.id = rid) (hxc : xid ≠ rid)
    (h : firstWithId xid (A ++ c :: B) = some x) :
    firstWithId xid (A ++ B.filter (fun e => e.id != rid) ++ [n]) = some x := by
  have hx := firstWithId_mem_and_id xid (A ++ c :: B) x h
  unfold firstWithId at h ⊢
  rw [List.find?_append] at h
  rw [List.append_assoc, List.find?_append]
  cases hA : A.find? (fun e => e.id == xid) with
  | some a =>
    rw [hA] at h
    have hax : a = x := by simpa using h
    subst hax
    rfl
  | none =>
    rw [hA] at h
    simp only [Option.none_or] at h
    have hpc : ¬((fun e : Routine => e.id == xid) c) = true := by
      simp [hcid]
      intro hcontra
      exact hxc (by rw [hcontra])
    have hcons : List.find? (fun e : Routine => e.id == xid) (c :: B) =
        List.find? (fun e : Routine => e.id == xid) B := List.find?_cons_of_neg _ hpc
    rw [hcons] at h
    have hfB : (B.filter (fun e => e.id != rid)).find? (fun e => e.id == xid) = some x := by
      refine find?_filter_of_imp _ _ B x ?_ h
      intro b hb
      have hbid : b.id = xid := by simpa using hb
      simp [hbid]
      intro hcontra
      exact hxc hcontra
    rw [List.find?_append, hfB]
    rfl

/-- Forced outcome of a clean delete branch. -/
theorem deletePhase_clean (env : RemoteEnv) (st : SyncState) (r : Routine)
    (herr : (deletePhase env st r).errors = st.errors) :
    (deletePhase env st r).recs = st.recs.filter (fun x => x.id != r.id) := by
  unfold deletePhase emit at herr ⊢
  by_cases h : env.deleteRoutineR r.id
  · simp [h]
  · simp [h] at herr

theorem processRoutine_delete_eq (env : RemoteEnv) (st : SyncState) (r : Routine)
    (hm : hasAnyMarker r = true) (hd : r.isOfflineDeleted = true) :
    processRoutine env st r = deletePhase env st r := by
  unfold processRoutine
  rw [if_neg (by simp [hm]), if_pos hd]

theorem processRoutine_create_eq (env : RemoteEnv) (st : SyncState) (r : Routine)
    (hm : hasAnyMarker r = true) (hd2 : r.isOfflineDeleted = false) (hc : r.isOffline = true) :
    processRoutine env st r = createPhase env (activationPhase env st r) r := by
  unfold processRoutine
  rw [if_neg (by simp [hm]), if_neg (by simp [hd2]), if_pos hc]

theorem processRoutine_update_eq (env : RemoteEnv) (st : SyncState) (r : Routine)
    (hm : hasAnyMarker r = true) (hd2 : r.isOfflineDeleted = false) (hc2 : r.isOffline = false) :
    processRoutine env st r = processSlotsSection r (updatePhase env (activationPhase env st r) r) := by
  unfold processRoutine
  rw [if_neg (by simp [hm]), if_neg (by simp [hd2]), if_neg (by simp [hc2])]

/-- A clean activation branch rewrites exactly the first entry with the
record's identifier by `actApply`. -/
theorem activationPhase_clean_some (env : RemoteEnv) (st : SyncState) (r : Routine)
    (A B : List Routine) (y : Routine)
    (hl : st.recs = A ++ y :: B) (hA : ∀ a ∈ A, (a.id == r.id) = false)
    (hy : (y.id == r.id) = true)
    (herr1 : (activationPhase env st r).errors = st.errors) :
    (activationPhase env st r).recs = A ++ actApply r y :: B := by
  have h1 := updateFirst_on_decomp actClean1 r.id A B y hA hy
  have h2 := updateFirst_on_decomp actClean2 r.id A B y hA hy
  unfold activationPhase emit at herr1 ⊢
  by_cases ha : r.needsActivationSync
  · by_cases hcall : env.activateRoutineR r.id
    · simp only [ha, if_true, hcall, hl]
      rw [show (fun x : Routine => { x with isActive := true, needsActivationSync := false }) =
        actClean1 from rfl, h1]
      simp [actApply, ha]
    · simp only [ha, if_true, hcall, Bool.false_eq_true, if_false] at herr1
      simp at herr1
  · by_cases hda : r.needsDeactivationSync
    · by_cases hcall : env.deactivateRoutineR r.id
      · simp only [ha, Bool.false_eq_true, if_false, hda, if_true, hcall, hl]
        rw [show (fun x : Routine => { x with isActive := false, needsDeactivationSync := false }) =
          actClean2 from rfl, h2]
        simp [actApply, ha, hda]
      · simp only [ha, Bool.false_eq_true, if_false, hda, if_true, hcall] at herr1
        simp at herr1
    · simp only [ha, hda, Bool.false_eq_true, if_false]
      simp [hl, actApply, ha, hda]

/-- When no collection entry carries the record's identifier, a clean
activation branch leaves the collection unchanged. -/
theorem activationPhase_clean_none (env : RemoteEnv) (st : SyncState) (r : Routine)
    (hnone : firstWithId r.id st.recs = none)
    (herr1 : (activationPhase env st r).errors = st.errors) :
    (activationPhase env st r).recs = st.recs := by
  unfold activationPhase emit at herr1 ⊢
  by_cases ha : r.needsActivationSync
  · by_cases hcall : env.activateRoutineR r.id
    · simp only [ha, if_true, hcall]
      rw [updateFirst_of_none _ _ _ hnone]
    · simp only [ha, if_true, hcall, Bool.false_eq_true, if_false] at herr1
      simp at herr1
  · by_cases hda : r.needsDeactivationSync
    · by_cases hcall : env.deactivateRoutineR r.id
      · simp only [ha, Bool.false_eq_true, if_false, hda, if_true, hcall]
        rw [updateFirst_of_none _ _ _ hnone]
      · simp only [ha, Bool.false_eq_true, if_false, hda, if_true, hcall] at herr1
        simp at herr1
    · simp [ha, hda]

/-- A clean update branch rewrites exactly the first entry with the
record's identifier by the merge (or does nothing without the marker). -/
theorem updatePhase_clean_some (env : RemoteEnv) (st1 : SyncState) (r : Routine)
    (A B : List Routine) (y1 : Routine)
    (hl : st1.recs = A ++ y1 :: B) (hA : ∀ a ∈ A, (a.id == r.id) = false)
    (hy : (y1.id == r.id) = true)
    (herr1 : (updatePhase env st1 r).errors = st1.errors) :
    (updatePhase env st1 r).recs =
      A ++ (if r.isOfflineUpdated then mergeUpdate y1 r else y1) :: B := by
  have h1 := updateFirst_on_decomp (fun x => mergeUpdate x r) r.id A B y1 hA hy
  unfold updatePhase emit at herr1 ⊢
  by_cases hu : r.isOfflineUpdated
  · by_cases hcall : env.updateRoutineR r.id (updatePayload r)
    · simp only [hu, if_true, hcall, hl, h1]
    · simp only [hu, if_true, hcall, Bool.false_eq_true, if_false] at herr1
      simp at herr1
  · simp [hu, hl]

/-- When no collection entry carries the record's identifier, a clean
update branch leaves the collection unchanged. -/
theorem updatePhase_clean_none (env : RemoteEnv) (st1 : SyncState) (r : Routine)
    (hnone : firstWithId r.id st1.recs = none)
    (herr1 : (updatePhase env st1 r).errors = st1.errors) :
    (updatePhase env st1 r).recs = st1.recs := by
  unfold updatePhase emit at herr1 ⊢
  by_cases hu : r.isOfflineUpdated
  · by_cases hcall : env.updateRoutineR r.id (updatePayload r)
    · simp only [hu, if_true, hcall]
      rw [updateFirst_of_none _ _ _ hnone]
    · simp only [hu, if_true, hcall, Bool.false_eq_true, if_false] at herr1
      simp at herr1
  · simp [hu]

/-- A clean create branch filtered the temporary identifier out and pushed
a server-returned record. -/
theorem createPhase_clean (env : RemoteEnv) (st1 : SyncState) (r : Routine)
    (herr1 : (createPhase env st1 r).errors = st1.errors) :
    ∃ n, env.createRoutineR (createPayload r) = some n ∧
      (createPhase env st1 r).recs = st1.recs.filter (fun x => x.id != r.id) ++ [n] := by
  unfold createPhase emit at herr1 ⊢
  cases hcall : env.createRoutineR (createPayload r) with
  | some n => exact ⟨n, rfl, by simp [hcall]⟩
  | none =>
    rw [hcall] at herr1
    simp at herr1

/-- Invariant of the clean-pass argument: every entry of the working
collection that still carries a marker is one of the records not yet
processed, is the first entry with its identifier, and occurs exactly once. -/
def dirtyInv (L recs : List Routine) : Prop :=
  ∀ x ∈ recs, hasAnyMarker x = true →
    x ∈ L ∧ firstWithId x.id recs = some x ∧ recs.count x = 1

theorem firstWithId_filter (x : Routine) (l : List Routine) (q : Routine → Bool)
    (hq : ∀ b, (b.id == x.id) = true → q b = true)
    (h : firstWithId x.id l = some x) : firstWithId x.id (l.filter q) = some x := by
  unfold firstWithId at h ⊢
  exact find?_filter_of_imp _ _ l x hq h

theorem firstWithId_append_keep (xid : String) (l1 l2 : List Routine) (x : Routine)
    (h : firstWithId xid l1 = some x) : firstWithId xid (l1 ++ l2) = some x := by
  unfold firstWithId at h ⊢
  exact find?_append_left _ l1 l2 x h

theorem firstWithId_none_forall (rid : String) (l : List Routine)
    (h : firstWithId rid l = none) : ∀ a ∈ l, (a.id == rid) = false := by
  unfold firstWithId at h
  intro a ha
  have := List.find?_eq_none.mp h a ha
  simpa using this

theorem count_one_replace (A B : List Routine) (c c2 x : Routine)
    (hxc : x ≠ c) (hxc2 : x ≠ c2) (h : (A ++ c :: B).count x = 1) :
    (A ++ c2 :: B).count x = 1 := by
  have h1 : (c == x) = false := by
    simp only [beq_eq_false_iff_ne]
    exact fun hcontra => hxc hcontra.symm
  have h2 : (c2 == x) = false := by
    simp only [beq_eq_false_iff_ne]
    exact fun hcontra => hxc2 hcontra.symm
  rw [List.count_append, List.count_cons, h1] at h
  rw [List.count_append, List.count_cons, h2]
  simpa using h

theorem count_one_filter_shape (A B : List Routine) (c x n : Routine) (q : Routine → Bool)
    (hxc : x ≠ c) (hxn : x ≠ n)
    (h : (A ++ c :: B).count x = 1)
    (hmem : x ∈ A ++ B.filter q ++ [n]) :
    (A ++ B.filter q ++ [n]).count x = 1 := by
  have h1 : (c == x) = false := by
    simp only [beq_eq_false_iff_ne]
    exact fun hcontra => hxc hcontra.symm
  rw [List.count_append, List.count_cons, h1, if_neg Bool.false_ne_true] at h
  have hfle : (B.filter q).count x ≤ B.count x := (List.filter_sublist B).count_le x
  have hpos : 0 < (A ++ B.filter q ++ [n]).count x := List.count_pos_iff.mpr hmem
  have hn0 : ([n] : List Routine).count x = 0 := by
    have : (n == x) = false := by
      simp only [beq_eq_false_iff_ne]
      exact fun hcontra => hxn hcontra.symm
    simp [List.count_cons, this]
  rw [List.count_append, List.count_append, hn0] at hpos ⊢
  omega

/-- The first entry with the current record's identifier, if it still
carries a marker, is that record itself. -/
theorem dirty_first_is_self (st : SyncState) (r y : Routine) (L2 : List Routine)
    (hids : ∀ x ∈ L2, x.id ≠ r.id)
    (hinv : dirtyInv (r :: L2) st.recs)
    (hfr : firstWithId r.id st.recs = some y)
    (hyd : hasAnyMarker y = true) : y = r := by
  obtain ⟨hymem, hyid⟩ := firstWithId_mem_and_id r.id st.recs y hfr
  obtain ⟨hyL, h2, h3⟩ := hinv y hymem hyd
  rcases List.mem_cons.mp hyL with h | h
  · exact h
  · exact absurd hyid (hids y h)

/-- A marked entry of the suffix `B` cannot be the current record. -/
theorem b_entry_ne_r (st : SyncState) (r y x : Routine) (A B L2 : List Routine)
    (hids : ∀ z ∈ L2, z.id ≠ r.id)
    (hinv : dirtyInv (r :: L2) st.recs)
    (hl : st.recs = A ++ y :: B)
    (hfr : firstWithId r.id st.recs = some y)
    (hx : x ∈ B) (hdx : hasAnyMarker x = true) : x ≠ r := by
  intro hcontra
  subst hcontra
  have hxmem : x ∈ st.recs := by
    rw [hl]
    simp [hx]
  obtain ⟨h1, hfwr, hcntr⟩ := hinv x hxmem hdx
  have hyx : y = x := by
    rw [hfr] at hfwr
    injection hfwr
  subst hyx
  rw [hl, List.count_append, List.count_cons] at hcntr
  have hpos : 0 < B.count y := List.count_pos_iff.mpr hx
  have hself : (y == y) = true := by simp
  rw [hself, if_pos rfl] at hcntr
  omega

/-- One clean iteration of the reconciliation loop preserves the dirty-entry
invariant: after processing `r` with no error, every entry still carrying a
marker belongs to the remaining records. -/
theorem step_clean_preserves (env : RemoteEnv) (st : SyncState) (r : Routine)
    (L2 : List Routine)
    (henv : envCreatesClean env)
    (hdd : ¬(r.needsActivationSync = true ∧ r.needsDeactivationSync = true))
    (hids : ∀ x ∈ L2, x.id ≠ r.id)
    (hinv : dirtyInv (r :: L2) st.recs)
    (herr : (processRoutine env st r).errors = st.errors) :
    dirtyInv L2 (processRoutine env st r).recs := by
  by_cases hm : hasAnyMarker r
  case neg =>
    have hm2 : hasAnyMarker r = false := by simpa using hm
    rw [processRoutine_skip env st r hm2]
    intro x hx hdx
    obtain ⟨hxL, hfw, hcnt⟩ := hinv x hx hdx
    have hxr : x ≠ r := by
      intro hcontra
      rw [hcontra, hm2] at hdx
      exact absurd hdx (by simp)
    exact ⟨(List.mem_cons.mp hxL).resolve_left hxr, hfw, hcnt⟩
  case pos =>
    by_cases hd : r.isOfflineDeleted
    · -- delete branch
      rw [processRoutine_delete_eq env st r hm hd] at herr ⊢
      rw [deletePhase_clean env st r herr]
      intro x hx hdx
      have hxmem : x ∈ st.recs := (List.mem_filter.mp hx).1
      have hxid : x.id ≠ r.id := by
        have := (List.mem_filter.mp hx).2
        simpa using this
      obtain ⟨hxL, hfw, hcnt⟩ := hinv x hxmem hdx
      have hxr : x ≠ r := fun hcontra => hxid (by rw [hcontra])
      refine ⟨(List.mem_cons.mp hxL).resolve_left hxr, ?_, ?_⟩
      · refine firstWithId_filter x st.recs _ ?_ hfw
        intro b hb
        have hbid : b.id = x.id := by simpa using hb
        simp [hbid]
        exact fun hcontra => hxid hcontra
      · have hle : (st.recs.filter (fun e => e.id != r.id)).count x ≤ st.recs.count x :=
          (List.filter_sublist st.recs).count_le x
        have hpos := List.count_pos_iff.mpr hx
        omega
    · have hd2 : r.isOfflineDeleted = false := by simpa using hd
      by_cases hc : r.isOffline
      · -- create branch
        have herr2 : (createPhase env (activationPhase env st r) r).errors = st.errors := by
          rw [processRoutine_create_eq env st r hm hd2 hc] at herr
          exact herr
        have e1 := errors_le_activationPhase env st r
        have e2 := errors_le_createPhase env (activationPhase env st r) r
        have hacterr : (activationPhase env st r).errors = st.errors := by omega
        have hcreerr : (createPhase env (activationPhase env st r) r).errors =
            (activationPhase env st r).errors := by omega
        obtain ⟨n, hncall, hnrecs⟩ := createPhase_clean env (activationPhase env st r) r hcreerr
        have hnclean : hasAnyMarker n = false := henv _ n hncall
        rw [processRoutine_create_eq env st r hm hd2 hc, hnrecs]
        cases hfr : firstWithId r.id st.recs with
        | none =>
          rw [activationPhase_clean_none env st r hfr hacterr]
          have hfilter : st.recs.filter (fun x => x.id != r.id) = st.recs := by
            rw [List.filter_eq_self]
            intro a ha
            have h2 : a.id ≠ r.id := by simpa using firstWithId_none_forall r.id st.recs hfr a ha
            simp [h2]
          rw [hfilter]
          intro x hx hdx
          have hxn : x ≠ n := by
            intro hcontra
            rw [hcontra, hnclean] at hdx
            exact absurd hdx (by simp)
          rcases List.mem_append.mp hx with hx1 | hx1
          · obtain ⟨hxL, hfw, hcnt⟩ := hinv x hx1 hdx
            have hxr : x ≠ r := by
              intro hcontra
              rw [hcontra, hfr] at hfw
              exact absurd hfw (by simp)
            refine ⟨(List.mem_cons.mp hxL).resolve_left hxr,
              firstWithId_append_keep x.id st.recs [n] x hfw, ?_⟩
            rw [List.count_append]
            have hn0 : ([n] : List Routine).count x = 0 := by
              have : (n == x) = false := by
                simp only [beq_eq_false_iff_ne]
                exact fun hcontra => hxn hcontra.symm
              simp [List.count_cons, this]
            omega
          · exact absurd (by simpa using hx1) hxn
        | some y =>
          obtain ⟨A, B, hl, hA, hfuf⟩ := updateFirst_char r.id st.recs y hfr
          obtain ⟨hymem, hyid⟩ := firstWithId_mem_and_id r.id st.recs y hfr
          rw [activationPhase_clean_some env st r A B y hl hA (by simp [hyid]) hacterr]
          have hfilterA : A.filter (fun x => x.id != r.id) = A := by
            rw [List.filter_eq_self]
            intro a ha
            simp [bne, hA a ha]
          have hcompute : (A ++ actApply r y :: B).filter (fun x => x.id != r.id) =
              A ++ B.filter (fun x => x.id != r.id) := by
            rw [List.filter_append, hfilterA, List.filter_cons_of_neg (by
              simp [bne, actApply_id, hyid])]
          rw [hcompute]
          intro x hx hdx
          have hxn : x ≠ n := by
            intro hcontra
            rw [hcontra, hnclean] at hdx
            exact absurd hdx (by simp)
          have hsplit : (x ∈ A ∨ x ∈ B.filter (fun e => e.id != r.id)) ∨ x = n := by
            rcases List.mem_append.mp hx with h1 | h1
            · exact Or.inl (List.mem_append.mp h1)
            · exact Or.inr (by simpa using h1)
          rcases hsplit with h1 | h1
          · have hxid : x.id ≠ r.id := by
              rcases h1 with h2 | h2
              · intro hcontra
                have := hA x h2
                rw [hcontra] at this
                simp at this
              · have := (List.mem_filter.mp h2).2
                simpa using this
            have hxmem : x ∈ st.recs := by
              rw [hl]
              rcases h1 with h2 | h2
              · simp [h2]
              · have := (List.mem_filter.mp h2).1
                simp [this]
            obtain ⟨hxL, hfw, hcnt⟩ := hinv x hxmem hdx
            have hxr : x ≠ r := fun hcontra => hxid (by rw [hcontra])
            have hxL2 : x ∈ L2 := (List.mem_cons.mp hxL).resolve_left hxr
            rw [hl] at hfw hcnt
            have hxyid : x.id ≠ y.id := by rw [hyid]; exact hxid
            have haid : (actApply r y).id = y.id := actApply_id r y
            have hfw2 := firstWithId_replace A B y (actApply r y) x x.id haid hxyid hfw
            have hfw3 := firstWithId_filter_drop A B (actApply r y) x n r.id x.id
              (by rw [haid]; exact hyid) hxid hfw2
            have hxney : x ≠ y := fun hcontra => hxyid (by rw [hcontra])
            have hxnay : x ≠ actApply r y := fun hcontra => hxyid (by rw [hcontra, haid])
            have hcnt2 := count_one_replace A B y (actApply r y) x hxney hxnay hcnt
            have hcnt3 := count_one_filter_shape A B (actApply r y) x n
              (fun e => e.id != r.id) hxnay hxn hcnt2 hx
            exact ⟨hxL2, hfw3, hcnt3⟩
          · exact absurd h1 hxn
      · -- update branch
        have hc2 : r.isOffline = false := by simpa using hc
        have herr2 : (updatePhase env (activationPhase env st r) r).errors +
            r.slots.countP slotMarked = st.errors := by
          rw [processRoutine_update_eq env st r hm hd2 hc2] at herr
          rw [processSlotsSection_char] at herr
          exact herr
        have e1 := errors_le_activationPhase env st r
        have e2 := errors_le_updatePhase env (activationPhase env st r) r
        have hacterr : (activationPhase env st r).errors = st.errors := by omega
        have hupderr : (updatePhase env (activationPhase env st r) r).errors =
            (activationPhase env st r).errors := by omega
        have hcnt0 : r.slots.countP slotMarked = 0 := by omega
        have hslots : r.slots.any slotMarked = false := slots_clean_of_countP _ hcnt0
        have hgoal : dirtyInv L2 (updatePhase env (activationPhase env st r) r).recs → 
            dirtyInv L2 (processRoutine env st r).recs := by
          intro h
          rw [processRoutine_update_eq env st r hm hd2 hc2, processSlotsSection_char]
          exact h
        refine hgoal ?_
        cases hfr : firstWithId r.id st.recs with
        | none =>
          have hst1 : (activationPhase env st r).recs = st.recs :=
            activationPhase_clean_none env st r hfr hacterr
          have hupdnone : firstWithId r.id (activationPhase env st r).recs = none := by
            rw [hst1]
            exact hfr
          rw [updatePhase_clean_none env (activationPhase env st r) r hupdnone hupderr, hst1]
          intro x hx hdx
          obtain ⟨hxL, hfw, hcnt⟩ := hinv x hx hdx
          have hxr : x ≠ r := by
            intro hcontra
            rw [hcontra, hfr] at hfw
            exact absurd hfw (by simp)
          exact ⟨(List.mem_cons.mp hxL).resolve_left hxr, hfw, hcnt⟩
        | some y =>
          obtain ⟨A, B, hl, hA, hfuf⟩ := updateFirst_char r.id st.recs y hfr
          obtain ⟨hymem, hyid⟩ := firstWithId_mem_and_id r.id st.recs y hfr
          have hst1 : (activationPhase env st r).recs = A ++ actApply r y :: B :=
            activationPhase_clean_some env st r A B y hl hA (by simp [hyid]) hacterr
          have haid : (actApply r y).id = y.id := actApply_id r y
          rw [updatePhase_clean_some env (activationPhase env st r) r A B (actApply r y)
            hst1 hA (by simp [haid, hyid]) hupderr]
          have hy2id : (if r.isOfflineUpdated then mergeUpdate (actApply r y) r
              else actApply r y).id = y.id := by
            by_cases hu : r.isOfflineUpdated
            · simp [hu, mergeUpdate_id, hyid]
            · simp [hu, haid]
          have hy2clean : hasAnyMarker (if r.isOfflineUpdated then
              mergeUpdate (actApply r y) r else actApply r y) = false := by
            by_cases hyd : hasAnyMarker y
            · have hyr : y = r := dirty_first_is_self st r y L2 hids hinv hfr hyd
              subst hyr
              exact final_entry_clean y hm hd2 hc2 hdd hslots
            · have hyclean : hasAnyMarker y = false := by simpa using hyd
              have h1 := actApply_clean r y hyclean
              by_cases hu : r.isOfflineUpdated
              · simp only [hu, if_true]
                exact mergeUpdate_clean (actApply r y) r h1 hd2
              · simp only [hu, Bool.false_eq_true, if_false]
                exact h1
          intro x hx hdx
          have hxy2 : x ≠ (if r.isOfflineUpdated then mergeUpdate (actApply r y) r
              else actApply r y) := by
            intro hcontra
            rw [hcontra, hy2clean] at hdx
            exact absurd hdx (by simp)
          have hsplit : x ∈ A ∨ x ∈ B := by
            rcases List.mem_append.mp hx with h1 | h1
            · exact Or.inl h1
            · rcases List.mem_cons.mp h1 with h2 | h2
              · exact absurd h2 hxy2
              · exact Or.inr h2
          have hxr : x ≠ r := by
            rcases hsplit with h1 | h1
            · intro hcontra
              have h2 := hA x h1
              rw [hcontra] at h2
              simp at h2
            · exact b_entry_ne_r st r y x A B L2 hids hinv hl hfr h1 hdx
          have hxmem : x ∈ st.recs := by
            rw [hl]
            rcases hsplit with h1 | h1 <;> simp [h1]
          obtain ⟨hxL, hfw, hcnt⟩ := hinv x hxmem hdx
          have hxL2 : x ∈ L2 := (List.mem_cons.mp hxL).resolve_left hxr
          have hxid : x.id ≠ r.id := hids x hxL2
          have hxyid : x.id ≠ y.id := by rw [hyid]; exact hxid
          rw [hl] at hfw hcnt
          have hfw2 := firstWithId_replace A B y
            (if r.isOfflineUpdated then mergeUpdate (actApply r y) r else actApply r y)
            x x.id hy2id hxyid hfw
          have hxney : x ≠ y := fun hcontra => hxyid (by rw [hcontra])
          have hcnt2 := count_one_replace A B y
            (if r.isOfflineUpdated then mergeUpdate (actApply r y) r else actApply r y)
            x hxney hxy2 hcnt
          exact ⟨hxL2, hfw2, hcnt2⟩

/-- A clean fold of the reconciliation loop leaves only marker-free
entries. -/
theorem pass_clean_all (env : RemoteEnv) (L : List Routine) (st : SyncState)
    (henv : envCreatesClean env)
    (hdd : ∀ x ∈ L, ¬(x.needsActivationSync = true ∧ x.needsDeactivationSync = true))
    (hnd : (L.map Routine.id).Nodup)
    (hinv : dirtyInv L st.recs)
    (herr : (L.foldl (processRoutine env) st).errors = st.errors) :
    ∀ x ∈ (L.foldl (processRoutine env) st).recs, hasAnyMarker x = false := by
  induction L generalizing st with
  | nil =>
    intro x hx
    by_cases hdx : hasAnyMarker x
    · obtain ⟨hxL, h2, h3⟩ := hinv x hx hdx
      exact absurd hxL (List.not_mem_nil x)
    · simpa using hdx
  | cons r L2 ih =>
    rw [List.foldl_cons] at herr ⊢
    have e1 := errors_le_processRoutine env st r
    have e2 := errors_le_foldl env L2 (processRoutine env st r)
    have hstep_err : (processRoutine env st r).errors = st.errors := by omega
    have hrest_err : (L2.foldl (processRoutine env) (processRoutine env st r)).errors =
        (processRoutine env st r).errors := by omega
    rw [List.map_cons, List.nodup_cons] at hnd
    have hids : ∀ x ∈ L2, x.id ≠ r.id := by
      intro x hx hcontra
      apply hnd.1
      rw [← hcontra]
      exact List.mem_map_of_mem Routine.id hx
    have hinv2 := step_clean_preserves env st r L2 henv (hdd r (by simp)) hids hinv hstep_err
    exact ih (processRoutine env st r) (fun x hx => hdd x (by simp [hx])) hnd.2 hinv2 hrest_err

/-- With pairwise-distinct identifiers every element is the first entry
with its identifier. -/
theorem firstWithId_of_nodup (L : List Routine) (x : Routine)
    (hnd : (L.map Routine.id).Nodup) (hx : x ∈ L) : firstWithId x.id L = some x := by
  induction L with
  | nil => simp at hx
  | cons a l ih =>
    rw [List.map_cons, List.nodup_cons] at hnd
    rcases List.mem_cons.mp hx with h | h
    · subst h
      exact firstWithId_cons_pos _ _ _ (by simp)
    · have hne : ¬(a.id == x.id) = true := by
        simp only [beq_iff_eq]
        intro hcontra
        apply hnd.1
        rw [hcontra]
        exact List.mem_map_of_mem Routine.id h
      rw [firstWithId_cons_neg _ _ _ hne]
      exact ih hnd.2 h

/-- The dirty-entry invariant holds initially: the working collection
starts as the stored list itself. -/
theorem dirtyInv_init (L : List Routine) (hnd : (L.map Routine.id).Nodup) :
    dirtyInv L L := by
  intro x hx hdx
  exact ⟨hx, firstWithId_of_nodup L x hnd hx,
    List.count_eq_one_of_mem (List.Nodup.of_map Routine.id hnd) hx⟩

/-- C3 amended: for a stored collection with pairwise-distinct identifiers
in which no record carries both the activation and the deactivation marker,
and a remote service whose creates return marker-free records, a clean
first pass (zero errors) leaves no record or slot carrying any mutation
marker, and a second pass — under any remote environment — issues zero
remote calls. -/
theorem c3_amended_idempotent_without_double_marker (env env2 : RemoteEnv)
    (stored : List Routine)
    (henv : envCreatesClean env)
    (hnd : (stored.map Routine.id).Nodup)
    (hdd : ∀ x ∈ stored, ¬(x.needsActivationSync = true ∧ x.needsDeactivationSync = true))
    (hclean : (syncPass env stored).errors = 0) :
    (∀ x ∈ (syncPass env stored).recs, hasAnyMarker x = false) ∧
    (syncPass env2 (syncPass env stored).recs).events = [] := by
  have hfree : ∀ x ∈ (syncPass env stored).recs, hasAnyMarker x = false := by
    unfold syncPass at hclean ⊢
    exact pass_clean_all env stored _ henv hdd hnd (dirtyInv_init stored hnd)
      (by simpa using hclean)
  refine ⟨hfree, ?_⟩
  show ((syncPass env stored).recs.foldl (processRoutine env2)
      { recs := (syncPass env stored).recs, events := [], errors := 0,
        hasChanges := false }).events = []
  rw [foldl_processRoutine_skip env2 _ _ hfree]

/-- Witness for C3 amended at a concrete input: one activation-marked
record, all-success remote environment; the first pass is clean and
the second pass is silent. -/
theorem c3_amended_idempotent_witness :
    (∀ x ∈ (syncPass envAllSuccess [{ baseRoutine with needsActivationSync := true }]).recs,
      hasAnyMarker x = false) ∧
    (syncPass envAllFail
      (syncPass envAllSuccess [{ baseRoutine with needsActivationSync := true }]).recs).events =
      [] :=
  c3_amended_idempotent_without_double_marker envAllSuccess envAllFail
    [{ baseRoutine with needsActivationSync := true }]
    (fun p n h => by simp [envAllSuccess] at h)
    (by decide) (by decide) (by decide)
